import Mathlib

/-!
Shallow embedding of the question-sheet state layer of the repository
(`src/store/useStore.js`): string sanitizers, the ingest transformer, the
tree-store mutators, the reorder engine, the stats aggregator and the
filter engine, together with proofs of the specified properties.

JavaScript conventions are modelled explicitly: a value that may be
`undefined`/`null`/non-string is an `Option`; string truthiness is the
test `≠ ""`; JS `Map` is an insertion-ordered list keyed by name; a JS
object used as a string-keyed map is an association list.
-/

namespace QMS

/-! ## Constants (`DIFFICULTY_LEVELS`, filter constants) -/

/-- `Object.values(DIFFICULTY_LEVELS)`, the four canonical labels. -/
def validDifficulties : List String := ["Easy", "Medium", "Hard", "Basic"]

def FILTER_ALL : String := "all"

def FILTER_SOLVED : String := "solved"

def FILTER_UNSOLVED : String := "unsolved"

/-! ## JavaScript string primitives -/

/-- `String.prototype.toLowerCase` (ASCII fragment, which covers the data
this program manipulates). -/
def jsToLower (s : String) : String := ⟨s.data.map Char.toLower⟩

/-- `String.prototype.trim`: strip leading and trailing whitespace. -/
def jsTrim (s : String) : String :=
  ⟨((s.data.dropWhile Char.isWhitespace).reverse.dropWhile Char.isWhitespace).reverse⟩

/-- Substring occurrence on character lists: `containsSub hay needle` is
true iff `needle` occurs contiguously inside `hay`. -/
def containsSub : List Char → List Char → Bool
  | [], needle => needle.isEmpty
  | c :: t, needle => needle.isPrefixOf (c :: t) || containsSub t needle

/-- `haystack.includes(needle)`. -/
def jsIncludes (haystack needle : String) : Bool :=
  containsSub haystack.data needle.data

/-! ## Sanitizer / Validator (`sanitizeString`, `validateDifficulty`,
`validateUrl`) -/

/-- `sanitizeString(value, fallback)`: `none` models a missing or
non-string value (the `typeof value !== 'string'` branch). -/
def sanitizeString (value : Option String) (fallback : String) : String :=
  match value with
  | none => fallback
  | some v => let t := jsTrim v; if t = "" then fallback else t

/-- `validateDifficulty(difficulty)`: canonical labels pass through,
anything else (including a missing value) coerces to `"Medium"`. -/
def validateDifficulty (difficulty : Option String) : String :=
  match difficulty with
  | some d => if d ∈ validDifficulties then d else "Medium"
  | none => "Medium"

/-- Model of `new URL(s)` succeeding: an absolute URL, i.e. an ASCII
letter followed by scheme characters and a colon. -/
def isAbsoluteUrl (s : String) : Bool :=
  match s.data with
  | [] => false
  | c :: rest =>
    c.isAlpha &&
      (rest.takeWhile (fun d => d ≠ ':')).all
        (fun d => d.isAlphanum || d == '+' || d == '-' || d == '.') &&
      rest.any (fun d => d == ':')

/-- `validateUrl(url)`: empty/non-string degrades to `""`; a trimmed
absolute URL is kept; otherwise the lenient fallback keeps strings
starting with `"http"` and drops the rest. -/
def validateUrl (url : Option String) : String :=
  match url with
  | none => ""
  | some u =>
    if u = "" then ""
    else
      let trimmed := jsTrim u
      if trimmed = "" then ""
      else if isAbsoluteUrl trimmed then trimmed
      else if trimmed.startsWith "http" then trimmed else ""

/-! ## Data model (normalized tree) -/

/-- A question node. `topic`, `subtopic`, `resource` and `tags` are set
by the ingest transformer but absent (`none`) on questions created by
`addQuestion`, exactly as in the source objects. -/
structure Question where
  id : String
  title : String
  topic : Option String
  subtopic : Option String
  difficulty : String
  url : String
  resource : Option String
  tags : Option (List String)
  isSolved : Bool
  order : Nat
  notes : String
deriving DecidableEq, Repr

structure Subtopic where
  id : String
  name : String
  order : Nat
  questions : List Question
deriving DecidableEq, Repr

structure Topic where
  id : String
  name : String
  order : Nat
  subtopics : List Subtopic
deriving DecidableEq, Repr

structure Sheet where
  id : String
  name : String
  description : String
  author : String
  followers : Int
  banner : String
  link : String
  tags : List String
deriving DecidableEq, Repr

/-! ## Raw ingest input (`rawData.data`) -/

/-- `q.questionId` nested record. -/
structure RawQuestionId where
  difficulty : Option String
  problemUrl : Option String
  topics : Option (List String)
deriving DecidableEq, Repr

/-- One raw question record. `srcId` models the `_id` field; `isSolved`
models the already-coerced `Boolean(q.isSolved)`. -/
structure RawQuestion where
  srcId : Option String
  title : Option String
  topic : Option String
  subTopic : Option String
  resource : Option String
  isSolved : Bool
  questionId : Option RawQuestionId
deriving DecidableEq, Repr

/-- The raw sheet record. `tag` entries are `Option String`, `none`
modelling a non-string entry (dropped by the `typeof` filter). -/
structure RawSheet where
  srcId : Option String
  name : Option String
  description : Option String
  author : Option String
  followers : Option Int
  banner : Option String
  link : Option String
  tag : Option (List (Option String))
deriving DecidableEq, Repr

/-- `rawData.data`; a missing `data` object collapses to both fields
`none` (the optional-chaining checks `rawData?.data?.sheet` and
`rawData?.data?.questions`). -/
structure RawData where
  sheet : Option RawSheet
  questions : Option (List RawQuestion)
deriving DecidableEq, Repr

/-! ## Ingest transformer (`transformSheetData`) -/

/-- First half of the loop body: `if (!topicsMap.has(topicName))
topicsMap.set(...)`. The JS `Map` is insertion-ordered, modelled as a
list keyed by `name`. -/
def ingestEnsureTopic (tmap : List Topic) (topicName : String) : List Topic :=
  if tmap.any (fun t => t.name == topicName) then tmap
  else
    tmap ++ [{ id := "topic-" ++ toString tmap.length, name := topicName,
               order := tmap.length, subtopics := [] }]

/-- `if (!topic.subtopics.has(subtopicName)) topic.subtopics.set(...)`. -/
def ingestEnsureSubtopic (t : Topic) (subtopicName : String) : Topic :=
  if t.subtopics.any (fun s => s.name == subtopicName) then t
  else
    { t with subtopics := t.subtopics ++
        [{ id := "subtopic-" ++ t.id ++ "-" ++ toString t.subtopics.length,
           name := subtopicName, order := t.subtopics.length, questions := [] }] }

/-- `subtopic.questions.push(...)` with `order` assigned the question
count at append time; `mkQ` receives that count. -/
def ingestPushQuestion (t : Topic) (subtopicName : String) (mkQ : Nat → Question) : Topic :=
  { t with subtopics := t.subtopics.map fun s =>
      if s.name == subtopicName then
        { s with questions := s.questions ++ [mkQ s.questions.length] }
      else s }

/-- One iteration of `questions.forEach`. The `Nat` component is the
fresh-id counter modelling `generateId('question')` (a UUID in the
source; only freshness, not the shape, matters to the program). -/
def ingestStep (acc : List Topic × Nat) (q : RawQuestion) : List Topic × Nat :=
  let topicName := sanitizeString q.topic "General"
  let subtopicName := sanitizeString q.subTopic "General"
  let tmap := ingestEnsureTopic acc.1 topicName
  let idCtr : String × Nat :=
    match q.srcId with
    | some s => if s ≠ "" then (s, acc.2) else ("question-" ++ toString acc.2, acc.2 + 1)
    | none => ("question-" ++ toString acc.2, acc.2 + 1)
  let mkQ : Nat → Question := fun n =>
    { id := idCtr.1,
      title := sanitizeString q.title "Untitled Question",
      topic := some topicName,
      subtopic := some subtopicName,
      difficulty := validateDifficulty (q.questionId.bind RawQuestionId.difficulty),
      url := validateUrl (q.questionId.bind RawQuestionId.problemUrl),
      resource := some (sanitizeString q.resource ""),
      tags := some ((q.questionId.bind RawQuestionId.topics).getD []),
      isSolved := q.isSolved,
      order := n,
      notes := "" }
  (tmap.map (fun t =>
      if t.name == topicName then
        ingestPushQuestion (ingestEnsureSubtopic t subtopicName) subtopicName mkQ
      else t),
   idCtr.2)

/-- The topics produced from a raw question list (the `forEach` loop plus
the final `Array.from` conversions, which are the identity here). -/
def ingestTopics (questions : List RawQuestion) : List Topic :=
  (questions.foldl ingestStep ([], 0)).1

/-- The sanitized topic name of a raw record (grouping key, level 1). -/
def qTopicName (q : RawQuestion) : String := sanitizeString q.topic "General"

/-- The sanitized subtopic name of a raw record (grouping key, level 2). -/
def qSubName (q : RawQuestion) : String := sanitizeString q.subTopic "General"

/-- Add a name to a first-seen list if it is not already present. -/
def insName (acc : List String) (n : String) : List String :=
  if n ∈ acc then acc else acc ++ [n]

/-- The distinct values of a list in first-seen order. -/
def firstSeen (l : List String) : List String := l.foldl insName []

/-- Invariant of the ingest fold: after processing `processed`, the
topic map lists topics in first-seen order of sanitized topic names with
positional `order`, each topic lists its subtopics in first-seen order
of sanitized subtopic names (restricted to its records) with positional
`order`, question `order`s are dense, and each subtopic holds exactly
the records of its group. -/
def IngestInv (processed : List RawQuestion) (tmap : List Topic) : Prop :=
  tmap.map Topic.name = firstSeen (processed.map qTopicName) ∧
  tmap.map Topic.order = List.range tmap.length ∧
  (∀ t ∈ tmap, t.subtopics.map Subtopic.name =
    firstSeen ((processed.filter (fun r => qTopicName r == t.name)).map qSubName)) ∧
  (∀ t ∈ tmap, t.subtopics.map Subtopic.order = List.range t.subtopics.length) ∧
  (∀ t ∈ tmap, ∀ sub ∈ t.subtopics,
    sub.questions.map Question.order = List.range sub.questions.length) ∧
  (∀ t ∈ tmap, ∀ sub ∈ t.subtopics,
    sub.questions.length = (processed.filter
      (fun r => qTopicName r == t.name && qSubName r == sub.name)).length)

/-- Sheet-record normalization from `transformSheetData`'s return value. -/
def ingestSheet (sheet : RawSheet) : Sheet :=
  { id := match sheet.srcId with
          | some s => if s ≠ "" then s else "sheet-generated"
          | none => "sheet-generated",
    name := sanitizeString sheet.name "Question Sheet",
    description := sanitizeString sheet.description "",
    author := sanitizeString sheet.author "",
    followers := (sheet.followers).getD 0,
    banner := sanitizeString sheet.banner "",
    link := validateUrl sheet.link,
    tags := (sheet.tag.getD []).filterMap id }

/-- `transformSheetData(rawData)`: throws `'Invalid sheet data format'`
when the sheet record or the questions collection is missing. -/
def transformSheetData (rawData : RawData) : Except String (Sheet × List Topic) :=
  match rawData.sheet, rawData.questions with
  | some sheet, some questions =>
    Except.ok (ingestSheet sheet, ingestTopics questions)
  | _, _ => Except.error "Invalid sheet data format"

/-! ## Reorder engine (`reorderArray`) and id lookup -/

/-- `Array.prototype.findIndex` without the `-1` encoding. -/
def findIndexList (p : α → Bool) : List α → Option Nat
  | [] => none
  | a :: as => if p a then some 0 else (findIndexList p as).map (· + 1)

/-- `Array.prototype.findIndex`, `-1` when absent. -/
def jsFindIndex (p : α → Bool) (l : List α) : Int :=
  match findIndexList p l with
  | some i => (i : Int)
  | none => -1

/-- `reorderArray(array, oldIndex, newIndex)`: guard, splice-out,
splice-in, then `map((item, index) => ({...item, order: index}))`.
`withOrder i item` is the order-field rewrite; the `none` branch of the
element lookup is unreachable at every call site (both indices come from
`findIndex` over the same array). -/
def reorderArray (withOrder : Nat → α → α) (array : List α) (oldIndex newIndex : Int) :
    List α :=
  if oldIndex = -1 ∨ newIndex = -1 ∨ oldIndex = newIndex then array
  else
    match array[oldIndex.toNat]? with
    | none => array
    | some removed =>
      ((array.eraseIdx oldIndex.toNat).insertIdx newIndex.toNat removed).mapIdx
        fun i item => withOrder i item

def topicWithOrder (i : Nat) (t : Topic) : Topic := { t with order := i }

def subtopicWithOrder (i : Nat) (s : Subtopic) : Subtopic := { s with order := i }

def questionWithOrder (i : Nat) (q : Question) : Question := { q with order := i }

/-! ## Store state and mutators -/

/-- The store state slice the claims are about. The expansion maps are
JS objects keyed by id, modelled as association lists. -/
structure State where
  sheet : Option Sheet
  topics : List Topic
  expandedTopics : List (String × Bool)
  expandedSubtopics : List (String × Bool)
  loading : Bool
  error : Option String
  searchQuery : String
  filterDifficulty : String
  filterStatus : String
deriving DecidableEq, Repr

/-- `delete obj[key]` on a string-keyed JS object. -/
def jsDeleteKey (m : List (String × Bool)) (k : String) : List (String × Bool) :=
  m.filter (fun p => p.1 ≠ k)

/-- `fetchSheetData()`, with the imported JSON document passed
explicitly. -/
def fetchSheetData (rawData : RawData) (s : State) : State :=
  if s.topics.length > 0 ∧ s.loading = false then s
  else
    let s1 := { s with loading := true, error := none }
    match transformSheetData rawData with
    | Except.ok (sheet, topics) =>
      { s1 with sheet := some sheet, topics := topics, loading := false }
    | Except.error msg => { s1 with error := some msg, loading := false }

/-- `resetProgress()`'s synchronous effect (the deferred re-fetch runs on
a later scheduler turn and is outside this state-transition model). -/
def resetProgress (s : State) : State :=
  { s with topics := [], sheet := none, loading := true, error := none }

/-- `toggleQuestionSolved(questionId)`: globally-scoped id search. -/
def toggleQuestionSolved (s : State) (questionId : String) : State :=
  if questionId = "" then s
  else
    { s with topics := s.topics.map fun topic =>
        { topic with subtopics := topic.subtopics.map fun sub =>
            { sub with questions := sub.questions.map fun q =>
                if q.id == questionId then { q with isSolved := !q.isSolved } else q } } }

/-- `updateTopicsNested` specialized to its single call site (the
`questionId === undefined` branch, updating a subtopic). -/
def updateTopicsNested (topics : List Topic) (topicId subtopicId : String)
    (updater : Subtopic → Subtopic) : List Topic :=
  topics.map fun topic =>
    if topicId ≠ "" ∧ topic.id ≠ topicId then topic
    else
      { topic with subtopics := topic.subtopics.map fun sub =>
          if subtopicId ≠ "" ∧ sub.id ≠ subtopicId then sub else updater sub }

/-- `toggleAllInSubtopic(topicId, subtopicId, solved)`. -/
def toggleAllInSubtopic (s : State) (topicId subtopicId : String) (solved : Bool) : State :=
  if topicId = "" ∨ subtopicId = "" then s
  else
    { s with topics := updateTopicsNested s.topics topicId subtopicId fun sub =>
        { sub with questions := sub.questions.map fun q => { q with isSolved := solved } } }

/-- `updateQuestionNotes(questionId, notes)`: globally-scoped id search. -/
def updateQuestionNotes (s : State) (questionId : String) (notes : Option String) : State :=
  if questionId = "" then s
  else
    { s with topics := s.topics.map fun topic =>
        { topic with subtopics := topic.subtopics.map fun sub =>
            { sub with questions := sub.questions.map fun q =>
                if q.id == questionId then { q with notes := sanitizeString notes "" } else q } } }

/-- `addTopic(name)`. -/
def addTopic (s : State) (name : Option String) : State :=
  let sanitizedName := sanitizeString name ""
  if sanitizedName = "" then s
  else
    { s with topics := s.topics ++
        [{ id := "topic-generated", name := sanitizedName,
           order := s.topics.length, subtopics := [] }] }

/-- `updateTopic(topicId, name)`. -/
def updateTopic (s : State) (topicId : String) (name : Option String) : State :=
  let sanitizedName := sanitizeString name ""
  if topicId = "" ∨ sanitizedName = "" then s
  else
    { s with topics := s.topics.map fun t =>
        if t.id == topicId then { t with name := sanitizedName } else t }

/-- `deleteTopic(topicId)`: drops the topic and prunes the topic's own
expansion entry; `expandedSubtopics` is not touched. -/
def deleteTopic (s : State) (topicId : String) : State :=
  if topicId = "" then s
  else
    { s with
      topics := s.topics.filter (fun t => t.id ≠ topicId),
      expandedTopics := jsDeleteKey s.expandedTopics topicId }

/-- `addSubtopic(topicId, name)`. -/
def addSubtopic (s : State) (topicId : String) (name : Option String) : State :=
  let sanitizedName := sanitizeString name ""
  if topicId = "" ∨ sanitizedName = "" then s
  else
    { s with topics := s.topics.map fun t =>
        if t.id ≠ topicId then t
        else
          { t with subtopics := t.subtopics ++
              [{ id := "subtopic-generated", name := sanitizedName,
                 order := t.subtopics.length, questions := [] }] } }

/-- `updateSubtopic(topicId, subtopicId, name)`. -/
def updateSubtopic (s : State) (topicId subtopicId : String) (name : Option String) : State :=
  let sanitizedName := sanitizeString name ""
  if topicId = "" ∨ subtopicId = "" ∨ sanitizedName = "" then s
  else
    { s with topics := s.topics.map fun t =>
        if t.id ≠ topicId then t
        else
          { t with subtopics := t.subtopics.map fun sub =>
              if sub.id == subtopicId then { sub with name := sanitizedName } else sub } }

/-- `deleteSubtopic(topicId, subtopicId)`: drops the subtopic inside the
addressed topic and prunes that subtopic's own expansion entry. -/
def deleteSubtopic (s : State) (topicId subtopicId : String) : State :=
  if topicId = "" ∨ subtopicId = "" then s
  else
    { s with
      topics := s.topics.map (fun t =>
        if t.id ≠ topicId then t
        else { t with subtopics := t.subtopics.filter (fun sub => sub.id ≠ subtopicId) }),
      expandedSubtopics := jsDeleteKey s.expandedSubtopics subtopicId }

/-- The `partial` object passed to `addQuestion`/`updateQuestion`:
`none` models an absent (`undefined`) field. -/
structure QuestionData where
  title : Option String
  difficulty : Option String
  url : Option String
deriving DecidableEq, Repr

/-- `addQuestion(topicId, subtopicId, questionData)`. -/
def addQuestion (s : State) (topicId subtopicId : String) (questionData : Option QuestionData) :
    State :=
  match questionData with
  | none => s
  | some qd =>
    if topicId = "" ∨ subtopicId = "" then s
    else
      let title := sanitizeString qd.title ""
      if title = "" then s
      else
        { s with topics := s.topics.map fun t =>
            if t.id ≠ topicId then t
            else
              { t with subtopics := t.subtopics.map fun sub =>
                  if sub.id ≠ subtopicId then sub
                  else
                    { sub with questions := sub.questions ++
                        [{ id := "question-generated", title := title,
                           topic := none, subtopic := none,
                           difficulty := validateDifficulty qd.difficulty,
                           url := validateUrl qd.url,
                           resource := none, tags := none,
                           isSolved := false, order := sub.questions.length,
                           notes := "" }] } } }

/-- The conditional-spread merge in `updateQuestion`: `title` and
`difficulty` only when truthy (present and non-empty), `url` whenever
not `undefined`. -/
def mergeQuestionData (q : Question) (qd : QuestionData) : Question :=
  let q1 := match qd.title with
            | some t => if t ≠ "" then { q with title := sanitizeString (some t) "" } else q
            | none => q
  let q2 := match qd.difficulty with
            | some d => if d ≠ "" then { q1 with difficulty := validateDifficulty (some d) } else q1
            | none => q1
  match qd.url with
  | some u => { q2 with url := validateUrl (some u) }
  | none => q2

/-- `updateQuestion(topicId, subtopicId, questionId, questionData)`. -/
def updateQuestion (s : State) (topicId subtopicId questionId : String)
    (questionData : Option QuestionData) : State :=
  match questionData with
  | none => s
  | some qd =>
    if topicId = "" ∨ subtopicId = "" ∨ questionId = "" then s
    else
      { s with topics := s.topics.map fun t =>
          if t.id ≠ topicId then t
          else
            { t with subtopics := t.subtopics.map fun sub =>
                if sub.id ≠ subtopicId then sub
                else
                  { sub with questions := sub.questions.map fun q =>
                      if q.id ≠ questionId then q else mergeQuestionData q qd } } }

/-- `deleteQuestion(topicId, subtopicId, questionId)`. -/
def deleteQuestion (s : State) (topicId subtopicId questionId : String) : State :=
  if topicId = "" ∨ subtopicId = "" ∨ questionId = "" then s
  else
    { s with topics := s.topics.map fun t =>
        if t.id ≠ topicId then t
        else
          { t with subtopics := t.subtopics.map fun sub =>
              if sub.id ≠ subtopicId then sub
              else { sub with questions := sub.questions.filter (fun q => q.id ≠ questionId) } } }

/-- `reorderTopics(activeId, overId)`. -/
def reorderTopics (s : State) (activeId overId : String) : State :=
  if activeId = "" ∨ overId = "" ∨ activeId = overId then s
  else
    let oldIndex := jsFindIndex (fun t => t.id == activeId) s.topics
    let newIndex := jsFindIndex (fun t => t.id == overId) s.topics
    if oldIndex ≠ -1 ∧ newIndex ≠ -1 then
      { s with topics := reorderArray topicWithOrder s.topics oldIndex newIndex }
    else s

/-- `reorderSubtopics(topicId, activeId, overId)`. -/
def reorderSubtopics (s : State) (topicId activeId overId : String) : State :=
  if topicId = "" ∨ activeId = "" ∨ overId = "" ∨ activeId = overId then s
  else
    { s with topics := s.topics.map fun t =>
        if t.id ≠ topicId then t
        else
          let oldIndex := jsFindIndex (fun x => x.id == activeId) t.subtopics
          let newIndex := jsFindIndex (fun x => x.id == overId) t.subtopics
          if oldIndex = -1 ∨ newIndex = -1 then t
          else { t with subtopics := reorderArray subtopicWithOrder t.subtopics oldIndex newIndex } }

/-- `reorderQuestions(topicId, subtopicId, activeId, overId)`. -/
def reorderQuestions (s : State) (topicId subtopicId activeId overId : String) : State :=
  if topicId = "" ∨ subtopicId = "" ∨ activeId = "" ∨ overId = "" ∨ activeId = overId then s
  else
    { s with topics := s.topics.map fun t =>
        if t.id ≠ topicId then t
        else
          { t with subtopics := t.subtopics.map fun sub =>
              if sub.id ≠ subtopicId then sub
              else
                let oldIndex := jsFindIndex (fun q => q.id == activeId) sub.questions
                let newIndex := jsFindIndex (fun q => q.id == overId) sub.questions
                if oldIndex = -1 ∨ newIndex = -1 then sub
                else { sub with questions := reorderArray questionWithOrder sub.questions oldIndex newIndex } } }

/-! ## Stats aggregator (`calculateDetailedStats`) -/

structure DiffStats where
  total : Nat
  solved : Nat
deriving DecidableEq, Repr

structure TopicStats where
  name : String
  total : Nat
  solved : Nat
deriving DecidableEq, Repr

/-- The result record of `calculateDetailedStats`; `byDifficulty` is the
four canonical buckets. -/
structure Stats where
  total : Nat
  solved : Nat
  easy : DiffStats
  medium : DiffStats
  hard : DiffStats
  basic : DiffStats
  byTopic : List TopicStats
deriving DecidableEq, Repr

/-- `stats.byDifficulty[difficulty].total++` guarded by the bucket
existing (only the four canonical keys have buckets). -/
def bumpDiffTotal (st : Stats) (d : String) : Stats :=
  if d = "Easy" then { st with easy := { st.easy with total := st.easy.total + 1 } }
  else if d = "Medium" then { st with medium := { st.medium with total := st.medium.total + 1 } }
  else if d = "Hard" then { st with hard := { st.hard with total := st.hard.total + 1 } }
  else if d = "Basic" then { st with basic := { st.basic with total := st.basic.total + 1 } }
  else st

/-- `stats.byDifficulty[difficulty].solved++` guarded the same way. -/
def bumpDiffSolved (st : Stats) (d : String) : Stats :=
  if d = "Easy" then { st with easy := { st.easy with solved := st.easy.solved + 1 } }
  else if d = "Medium" then { st with medium := { st.medium with solved := st.medium.solved + 1 } }
  else if d = "Hard" then { st with hard := { st.hard with solved := st.hard.solved + 1 } }
  else if d = "Basic" then { st with basic := { st.basic with solved := st.basic.solved + 1 } }
  else st

/-- The innermost loop body of `calculateDetailedStats`. -/
def statsAddQuestion (acc : Stats × TopicStats) (q : Question) : Stats × TopicStats :=
  let st := { acc.1 with total := acc.1.total + 1 }
  let ts := { acc.2 with total := acc.2.total + 1 }
  let d := validateDifficulty (some q.difficulty)
  let st := bumpDiffTotal st d
  if q.isSolved then
    (bumpDiffSolved { st with solved := st.solved + 1 } d, { ts with solved := ts.solved + 1 })
  else (st, ts)

def statsAddSubtopic (acc : Stats × TopicStats) (sub : Subtopic) : Stats × TopicStats :=
  sub.questions.foldl statsAddQuestion acc

def statsAddTopic (st : Stats) (topic : Topic) : Stats :=
  let acc := topic.subtopics.foldl statsAddSubtopic
    (st, { name := topic.name, total := 0, solved := 0 })
  { acc.1 with byTopic := acc.1.byTopic ++ [acc.2] }

def initialStats : Stats :=
  { total := 0, solved := 0, easy := ⟨0, 0⟩, medium := ⟨0, 0⟩, hard := ⟨0, 0⟩,
    basic := ⟨0, 0⟩, byTopic := [] }

/-- `calculateDetailedStats(topics)`. The source's null-guards on
`topic?.subtopics` / `subtopic?.questions` are unreachable in the typed
tree and therefore have no residue here. -/
def calculateDetailedStats (topics : List Topic) : Stats :=
  topics.foldl statsAddTopic initialStats

/-- Sum of the four per-difficulty `total` buckets. -/
def diffTotalSum (st : Stats) : Nat :=
  st.easy.total + st.medium.total + st.hard.total + st.basic.total

/-- Sum of the four per-difficulty `solved` buckets. -/
def diffSolvedSum (st : Stats) : Nat :=
  st.easy.solved + st.medium.solved + st.hard.solved + st.basic.solved

def byTopicTotalSum (st : Stats) : Nat := (st.byTopic.map TopicStats.total).sum

def byTopicSolvedSum (st : Stats) : Nat := (st.byTopic.map TopicStats.solved).sum

/-- Number of questions owned (transitively) by a topic. -/
def topicTotal (t : Topic) : Nat := (t.subtopics.map (fun sub => sub.questions.length)).sum

/-- Number of solved questions owned by a topic. -/
def topicSolvedCount (t : Topic) : Nat :=
  (t.subtopics.map (fun sub => sub.questions.countP (fun q => q.isSolved))).sum

/-! ## Filter engine (`filterQuestions`) -/

/-- `filterQuestions(questions, searchQuery, filterDifficulty,
filterStatus)`; the early-return chain becomes a nested conditional. -/
def filterQuestions (questions : List Question) (searchQuery : String)
    (filterDifficulty filterStatus : String) : List Question :=
  let normalizedSearch := jsTrim (jsToLower searchQuery)
  questions.filter fun q =>
    if normalizedSearch ≠ "" ∧ ¬ (jsIncludes (jsToLower q.title) normalizedSearch = true) then false
    else if (filterDifficulty ≠ "" ∧ filterDifficulty ≠ FILTER_ALL) ∧ q.difficulty ≠ filterDifficulty then false
    else if filterStatus = FILTER_SOLVED ∧ q.isSolved = false then false
    else if filterStatus = FILTER_UNSOLVED ∧ q.isSolved = true then false
    else true

/-- The specified filter predicate, written as the conjunction of the
three independent predicates of the spec: trimmed lower-cased search is
a substring of the lower-cased title, difficulty is `all` or an exact
match, status is `all` / `solved` / `unsolved` matching `isSolved`. -/
def specFilterPred (searchQuery filterDifficulty filterStatus : String) (q : Question) :
    Bool :=
  containsSub (jsToLower q.title).data (jsTrim (jsToLower searchQuery)).data &&
  (filterDifficulty == FILTER_ALL || q.difficulty == filterDifficulty) &&
  (filterStatus == FILTER_ALL ||
    (filterStatus == FILTER_SOLVED && q.isSolved) ||
    (filterStatus == FILTER_UNSOLVED && !q.isSolved))

/-! ## Concrete fixtures used by the examples and witnesses -/

def baseState (ts : List Topic) : State :=
  { sheet := none, topics := ts, expandedTopics := [], expandedSubtopics := [],
    loading := false, error := none, searchQuery := "",
    filterDifficulty := "all", filterStatus := "all" }

def mkBareTopic (i : String) (n : Nat) : Topic :=
  { id := i, name := i, order := n, subtopics := [] }

/-- Four sibling topics `A B C D` with dense orders, the spec's reorder
example. -/
def st4 : State :=
  baseState [mkBareTopic "A" 0, mkBareTopic "B" 1, mkBareTopic "C" 2, mkBareTopic "D" 3]

def exSub1 : Subtopic := { id := "s1", name := "S1", order := 0, questions := [] }

/-- A topic `t1` owning subtopic `s1`, with both expansion maps holding
an entry for their respective entity. -/
def ex8 : State :=
  { baseState [{ id := "t1", name := "T1", order := 0, subtopics := [exSub1] }] with
    expandedTopics := [("t1", true)], expandedSubtopics := [("s1", true)] }

def exQ1 : Question :=
  { id := "q1", title := "X", topic := none, subtopic := none, difficulty := "Easy",
    url := "", resource := none, tags := none, isSolved := false, order := 0, notes := "" }

/-- One topic / one subtopic / one question, for the update-merge
example. -/
def ex4 : State :=
  baseState [{ id := "t1", name := "T1", order := 0,
               subtopics := [{ id := "s1", name := "S1", order := 0, questions := [exQ1] }] }]

/-- A `partial` update carrying a present-but-empty title only. -/
def qdEmptyTitle : QuestionData := { title := some "", difficulty := none, url := none }

/-- A fully-populated `partial` update. -/
def qdFull : QuestionData :=
  { title := some " Two Sum ", difficulty := some "Hard", url := some "https://x.io/p" }

def emptyRawSheet : RawSheet :=
  { srcId := none, name := none, description := none, author := none,
    followers := none, banner := none, link := none, tag := none }

/-- A document with a sheet record but no questions collection. -/
def rawNoQuestions : RawData := { sheet := some emptyRawSheet, questions := none }

/-- The initial store state (before any load). -/
def emptyState : State :=
  { baseState [] with loading := true, filterDifficulty := FILTER_ALL, filterStatus := FILTER_ALL }

/-- Forget the `order` field of a question (for permutation statements
about everything except `order`). -/
def questionEraseOrder (q : Question) : Question := { q with order := 0 }

def subtopicEraseOrder (s : Subtopic) : Subtopic := { s with order := 0 }

def topicEraseOrder (t : Topic) : Topic := { t with order := 0 }

/-- The spec's filter-composition fixture: one match and three
near-misses (wrong title, wrong difficulty, already solved). -/
def exQTwoSum : Question :=
  { id := "f1", title := "Two Sum", topic := none, subtopic := none, difficulty := "Easy",
    url := "", resource := none, tags := none, isSolved := false, order := 0, notes := "" }

def exQWrongTitle : Question :=
  { id := "f2", title := "Three Sum", topic := none, subtopic := none, difficulty := "Easy",
    url := "", resource := none, tags := none, isSolved := false, order := 1, notes := "" }

def exQWrongDiff : Question :=
  { id := "f3", title := "Two Sum II", topic := none, subtopic := none, difficulty := "Hard",
    url := "", resource := none, tags := none, isSolved := false, order := 2, notes := "" }

def exQSolved : Question :=
  { id := "f4", title := "Two Sum Variant", topic := none, subtopic := none,
    difficulty := "Easy", url := "", resource := none, tags := none, isSolved := true,
    order := 3, notes := "" }

def qs4 : List Question := [exQTwoSum, exQWrongTitle, exQWrongDiff, exQSolved]

/-- Two raw records sharing `topic="Arrays", subTopic="Basics"` (the
spec's ingest-grouping fixture). -/
def rqA1 : RawQuestion :=
  { srcId := some "q1", title := some "Two Sum", topic := some "Arrays",
    subTopic := some "Basics", resource := none, isSolved := false, questionId := none }

/-- The topic produced by ingesting `[rqA1, rqA2]`. -/
def exIngTopic : Topic :=
  { id := "topic-0", name := "Arrays", order := 0,
    subtopics :=
      [{ id := "subtopic-topic-0-0", name := "Basics", order := 0,
         questions :=
           [{ id := "q1", title := "Two Sum", topic := some "Arrays",
              subtopic := some "Basics", difficulty := "Medium", url := "",
              resource := some "", tags := some [], isSolved := false, order := 0,
              notes := "" },
            { id := "q2", title := "Three Sum", topic := some "Arrays",
              subtopic := some "Basics", difficulty := "Medium", url := "",
              resource := some "", tags := some [], isSolved := true, order := 1,
              notes := "" }] }] }

def rqA2 : RawQuestion :=
  { srcId := some "q2", title := some "Three Sum", topic := some "Arrays",
    subTopic := some "Basics", resource := none, isSolved := true, questionId := none }

def exQ2 : Question :=
  { id := "q2", title := "Y", topic := none, subtopic := none, difficulty := "Hard",
    url := "", resource := none, tags := none, isSolved := true, order := 1, notes := "n" }

/-! ## Helper lemmas -/

lemma findIndexList_some (p : α → Bool) :
    ∀ (l : List α) (i : Nat), findIndexList p l = some i →
      ∃ h : i < l.length, p (l.get ⟨i, h⟩) = true := by
  intro l
  induction l with
  | nil => intro i h; simp [findIndexList] at h
  | cons a as ih =>
    intro i h
    by_cases hpa : p a = true
    · simp [findIndexList, hpa] at h
      subst h
      exact ⟨Nat.succ_pos _, hpa⟩
    · simp [findIndexList, hpa] at h
      obtain ⟨i0, h0, rfl⟩ := h
      obtain ⟨hlt, hget⟩ := ih i0 h0
      exact ⟨Nat.succ_lt_succ hlt, hget⟩

lemma jsFindIndex_of_some {p : α → Bool} {l : List α} {i : Nat}
    (h : findIndexList p l = some i) : jsFindIndex p l = (i : Int) := by
  simp [jsFindIndex, h]

lemma jsFindIndex_of_none {p : α → Bool} {l : List α}
    (h : findIndexList p l = none) : jsFindIndex p l = -1 := by
  simp [jsFindIndex, h]

lemma perm_get_cons_eraseIdx :
    ∀ (l : List α) (i : Nat) (h : i < l.length), l.Perm (l.get ⟨i, h⟩ :: l.eraseIdx i) := by
  intro l
  induction l with
  | nil => intro i h; simp at h
  | cons a as ih =>
    intro i h
    cases i with
    | zero => simp [List.eraseIdx]
    | succ i0 =>
      have h0 : i0 < as.length := Nat.lt_of_succ_lt_succ h
      have step := (ih i0 h0).cons a
      refine step.trans ?_
      exact List.Perm.swap (as.get ⟨i0, h0⟩) a _

lemma perm_insertIdx :
    ∀ (l : List α) (n : Nat) (a : α), n ≤ l.length → (l.insertIdx n a).Perm (a :: l) := by
  intro l
  induction l with
  | nil =>
    intro n a h
    have hn : n = 0 := Nat.le_zero.mp h
    subst hn
    simp
  | cons b t ih =>
    intro n a h
    cases n with
    | zero => simp
    | succ n0 =>
      have h0 : n0 ≤ t.length := Nat.le_of_succ_le_succ h
      have step := (ih n0 a h0).cons b
      simp only [List.insertIdx_succ_cons]
      exact step.trans (List.Perm.swap a b t)

lemma map_mapIdx_strip (f : Nat → α → α) (g : α → β)
    (h : ∀ i a, g (f i a) = g a) (l : List α) : (l.mapIdx f).map g = l.map g := by
  apply List.ext_getElem (by simp)
  intro i h1 h2
  simp [h]

lemma map_mapIdx_ord (f : Nat → α → α) (ord : α → Nat)
    (h : ∀ i a, ord (f i a) = i) (l : List α) :
    (l.mapIdx f).map ord = List.range l.length := by
  apply List.ext_getElem (by simp)
  intro i h1 h2
  simp [h]

lemma reorderArray_eq_move (w : Nat → α → α) (l : List α) (i j : Nat) (x : α)
    (hx : l[i]? = some x) (hij : i ≠ j) :
    reorderArray w l (i : Int) (j : Int) = ((l.eraseIdx i).insertIdx j x).mapIdx w := by
  have h1 : ¬((i : Int) = -1 ∨ (j : Int) = -1 ∨ (i : Int) = (j : Int)) := by
    push_neg
    refine ⟨by omega, by omega, by omega⟩
  simp only [reorderArray, if_neg h1, Int.toNat_natCast, hx]

lemma length_move (l : List α) (i j : Nat) (x : α)
    (hi : i < l.length) (hj : j < l.length) :
    ((l.eraseIdx i).insertIdx j x).length = l.length := by
  have he : (l.eraseIdx i).length = l.length - 1 := List.length_eraseIdx_of_lt hi
  have hj2 : j ≤ (l.eraseIdx i).length := by omega
  rw [List.length_insertIdx _ _ hj2, he]
  omega

lemma topicWithOrder_order : ∀ (i : Nat) (t : Topic), (topicWithOrder i t).order = i := by
  intro i t; rfl

lemma subtopicWithOrder_order : ∀ (i : Nat) (s : Subtopic), (subtopicWithOrder i s).order = i := by
  intro i s; rfl

lemma questionWithOrder_order : ∀ (i : Nat) (q : Question), (questionWithOrder i q).order = i := by
  intro i q; rfl

lemma map_eq_self_of (l : List α) (f : α → α) (h : ∀ a ∈ l, f a = a) : l.map f = l := by
  have h2 := List.map_congr_left (f := f) (g := id) h
  simpa using h2

lemma state_eta_topics (s : State) : { s with topics := s.topics } = s := by
  rfl

/-! ## Claim theorems -/

/-- C7: each reorder operation is a no-op when the moved id equals the
target id or when either id is absent from the touched sibling sequence:
the state, including every `order` field, is returned unchanged. -/
theorem reorder_noop_on_equal_or_absent_ids :
    ∀ (s : State) (tid sid a b : String),
    (reorderTopics s a a = s) ∧
    (reorderSubtopics s tid a a = s) ∧
    (reorderQuestions s tid sid a a = s) ∧
    ((findIndexList (fun t => t.id == a) s.topics = none ∨
      findIndexList (fun t => t.id == b) s.topics = none) → reorderTopics s a b = s) ∧
    ((∀ t ∈ s.topics, t.id = tid →
        (findIndexList (fun x => x.id == a) t.subtopics = none ∨
         findIndexList (fun x => x.id == b) t.subtopics = none)) →
      reorderSubtopics s tid a b = s) ∧
    ((∀ t ∈ s.topics, t.id = tid → ∀ sub ∈ t.subtopics, sub.id = sid →
        (findIndexList (fun q => q.id == a) sub.questions = none ∨
         findIndexList (fun q => q.id == b) sub.questions = none)) →
      reorderQuestions s tid sid a b = s) := by
  intro s tid sid a b
  refine ⟨by simp [reorderTopics], by simp [reorderSubtopics], by simp [reorderQuestions],
    ?_, ?_, ?_⟩
  · intro h
    by_cases hg : a = "" ∨ b = "" ∨ a = b
    · simp [reorderTopics, hg]
    · have hbad : ¬(jsFindIndex (fun t => t.id == a) s.topics ≠ -1 ∧
          jsFindIndex (fun t => t.id == b) s.topics ≠ -1) := by
        rcases h with h | h
        · intro hc; exact hc.1 (jsFindIndex_of_none h)
        · intro hc; exact hc.2 (jsFindIndex_of_none h)
      simp [reorderTopics, hg, if_neg hbad]
  · intro h
    by_cases hg : tid = "" ∨ a = "" ∨ b = "" ∨ a = b
    · simp [reorderSubtopics, hg]
    · simp only [reorderSubtopics, if_neg hg]
      refine Eq.trans (congrArg (fun l => { s with topics := l })
        (map_eq_self_of _ _ ?_)) (state_eta_topics s)
      intro t ht
      by_cases htid : t.id ≠ tid
      · simp [htid]
      · push_neg at htid
        have hone := h t ht htid
        have hbad : jsFindIndex (fun x => x.id == a) t.subtopics = -1 ∨
            jsFindIndex (fun x => x.id == b) t.subtopics = -1 := by
          rcases hone with hone | hone
          · exact Or.inl (jsFindIndex_of_none hone)
          · exact Or.inr (jsFindIndex_of_none hone)
        have hne : ¬(t.id ≠ tid) := by simp [htid]
        rw [if_neg hne]
        rw [if_pos hbad]
  · intro h
    by_cases hg : tid = "" ∨ sid = "" ∨ a = "" ∨ b = "" ∨ a = b
    · simp [reorderQuestions, hg]
    · simp only [reorderQuestions, if_neg hg]
      refine Eq.trans (congrArg (fun l => { s with topics := l })
        (map_eq_self_of _ _ ?_)) (state_eta_topics s)
      intro t ht
      by_cases htid : t.id ≠ tid
      · simp [htid]
      · push_neg at htid
        have hne : ¬(t.id ≠ tid) := by simp [htid]
        rw [if_neg hne]
        have hsubs : t.subtopics.map (fun sub =>
              if sub.id ≠ sid then sub
              else
                let oldIndex := jsFindIndex (fun q => q.id == a) sub.questions
                let newIndex := jsFindIndex (fun q => q.id == b) sub.questions
                if oldIndex = -1 ∨ newIndex = -1 then sub
                else { sub with questions := reorderArray questionWithOrder sub.questions oldIndex newIndex }) =
              t.subtopics := by
          apply map_eq_self_of
          intro sub hsub
          by_cases hsid : sub.id ≠ sid
          · simp [hsid]
          · push_neg at hsid
            have hone := h t ht htid sub hsub hsid
            have hbad : jsFindIndex (fun q => q.id == a) sub.questions = -1 ∨
                jsFindIndex (fun q => q.id == b) sub.questions = -1 := by
              rcases hone with hone | hone
              · exact Or.inl (jsFindIndex_of_none hone)
              · exact Or.inr (jsFindIndex_of_none hone)
            have hne2 : ¬(sub.id ≠ sid) := by simp [hsid]
            rw [if_neg hne2]
            dsimp only
            rw [if_pos hbad]
        rw [hsubs]

/-- C7 witness: on the concrete four-topic state, reordering with equal
ids and with an absent id both leave the state unchanged. -/
theorem reorder_noop_witness :
    reorderTopics st4 "A" "A" = st4 ∧ reorderTopics st4 "X" "C" = st4 := by
  constructor
  · exact (reorder_noop_on_equal_or_absent_ids st4 "" "" "A" "A").1
  · exact (reorder_noop_on_equal_or_absent_ids st4 "" "" "X" "C").2.2.2.1 (Or.inl (by decide))

/-- C9: every tree mutator leaves the `sheet` field of the state
untouched; `resetProgress` (like a successful `fetchSheetData`) replaces
it. -/
theorem mutators_preserve_sheet :
    ∀ (s : State) (tid sid qid aid oid : String) (optName notes : Option String)
      (qd : Option QuestionData) (solved : Bool),
    (addTopic s optName).sheet = s.sheet ∧
    (updateTopic s tid optName).sheet = s.sheet ∧
    (deleteTopic s tid).sheet = s.sheet ∧
    (addSubtopic s tid optName).sheet = s.sheet ∧
    (updateSubtopic s tid sid optName).sheet = s.sheet ∧
    (deleteSubtopic s tid sid).sheet = s.sheet ∧
    (addQuestion s tid sid qd).sheet = s.sheet ∧
    (updateQuestion s tid sid qid qd).sheet = s.sheet ∧
    (deleteQuestion s tid sid qid).sheet = s.sheet ∧
    (toggleQuestionSolved s qid).sheet = s.sheet ∧
    (toggleAllInSubtopic s tid sid solved).sheet = s.sheet ∧
    (updateQuestionNotes s qid notes).sheet = s.sheet ∧
    (reorderTopics s aid oid).sheet = s.sheet ∧
    (reorderSubtopics s tid aid oid).sheet = s.sheet ∧
    (reorderQuestions s tid sid aid oid).sheet = s.sheet ∧
    (resetProgress s).sheet = none := by
  intro s tid sid qid aid oid optName notes qd solved
  rcases qd with - | qd
  all_goals {
    refine ⟨?_, ?_, ?_, ?_, ?_, ?_, ?_, ?_, ?_, ?_, ?_, ?_, ?_, ?_, ?_, rfl⟩ <;>
    · simp only [addTopic, updateTopic, deleteTopic, addSubtopic, updateSubtopic,
        deleteSubtopic, addQuestion, updateQuestion, deleteQuestion,
        toggleQuestionSolved, toggleAllInSubtopic, updateQuestionNotes,
        reorderTopics, reorderSubtopics, reorderQuestions]
      repeat' split
      all_goals rfl
  }

/-- C8 counterexample: in the concrete state `ex8`, `deleteTopic "t1"`
cascade-deletes subtopic `s1` (no subtopic with id `s1` survives in the
tree) yet `expandedSubtopics` still holds an entry keyed `"s1"`, so the
expansion-state maps do not lose the ids of cascade-deleted entities. -/
theorem delete_cascade_expansion_counterexample :
    ((deleteTopic ex8 "t1").topics.all (fun t => t.subtopics.all (fun sub => sub.id != "s1"))
      = true) ∧
    ((deleteTopic ex8 "t1").expandedSubtopics.any (fun p => p.1 == "s1") = true) := by
  constructor
  · rfl
  · rfl

/-- C8 amended: after `deleteTopic id` the `expandedTopics` map contains
no entry keyed `id`, and after `deleteSubtopic topicId id` the
`expandedSubtopics` map contains no entry keyed `id` (for non-empty ids,
i.e. when the delete is not the guard no-op); entries keyed by the ids
of subtopics cascade-deleted with their parent topic are not pruned. -/
theorem delete_prunes_own_expansion_entry :
    ∀ (s : State) (tid sid : String), tid ≠ "" → sid ≠ "" →
    ((deleteTopic s tid).expandedTopics.all (fun p => p.1 != tid) = true) ∧
    ((deleteSubtopic s tid sid).expandedSubtopics.all (fun p => p.1 != sid) = true) := by
  intro s tid sid htid hsid
  constructor
  · simp only [deleteTopic, if_neg htid]
    simp [jsDeleteKey, List.all_eq_true, List.mem_filter]
  · have hg : ¬(tid = "" ∨ sid = "") := by
      intro hc; rcases hc with hc | hc
      · exact htid hc
      · exact hsid hc
    simp only [deleteSubtopic, if_neg hg]
    simp [jsDeleteKey, List.all_eq_true, List.mem_filter]

/-- C8 amended witness: concrete pruning on `ex8`. -/
theorem delete_prunes_own_expansion_entry_witness :
    ((deleteTopic ex8 "t1").expandedTopics.all (fun p => p.1 != "t1") = true) ∧
    ((deleteSubtopic ex8 "t1" "s1").expandedSubtopics.all (fun p => p.1 != "s1") = true) :=
  delete_prunes_own_expansion_entry ex8 "t1" "s1" (by decide) (by decide)

/-- C2: a document missing the sheet record or the questions collection
makes `transformSheetData` fail with the format error and (from a fresh
state) `fetchSheetData` records the error while the topic list stays
empty and no sheet is populated; a document that has both never makes
the transform fail. -/
theorem ingest_failure_is_fatal :
    (∀ raw : RawData, raw.sheet = none ∨ raw.questions = none →
      transformSheetData raw = Except.error "Invalid sheet data format" ∧
      ∀ s : State, s.topics = [] → s.sheet = none →
        (fetchSheetData raw s).error = some "Invalid sheet data format" ∧
        (fetchSheetData raw s).topics = [] ∧
        (fetchSheetData raw s).sheet = none) ∧
    (∀ raw : RawData, raw.sheet ≠ none → raw.questions ≠ none →
      ∃ out, transformSheetData raw = Except.ok out) := by
  constructor
  · rintro ⟨sh, qs⟩ h
    have herr : transformSheetData ⟨sh, qs⟩ = Except.error "Invalid sheet data format" := by
      rcases h with h | h
      · dsimp only at h
        subst h
        cases qs <;> rfl
      · dsimp only at h
        subst h
        cases sh <;> rfl
    refine ⟨herr, ?_⟩
    intro s hst hsh
    have hguard : ¬(s.topics.length > 0 ∧ s.loading = false) := by simp [hst]
    simp [fetchSheetData, if_neg hguard, herr, hst, hsh]
  · rintro ⟨sh, qs⟩ h1 h2
    cases sh with
    | none => exact absurd rfl h1
    | some sh0 =>
      cases qs with
      | none => exact absurd rfl h2
      | some qs0 => exact ⟨_, rfl⟩

/-- C2 witness: loading `rawNoQuestions` from the initial state fails
with the reported error, an empty topic list and no sheet. -/
theorem ingest_failure_is_fatal_witness :
    (fetchSheetData rawNoQuestions emptyState).error = some "Invalid sheet data format" ∧
    (fetchSheetData rawNoQuestions emptyState).topics = [] ∧
    (fetchSheetData rawNoQuestions emptyState).sheet = none :=
  (ingest_failure_is_fatal.1 rawNoQuestions (Or.inr rfl)).2 emptyState rfl rfl

lemma mergeQuestionData_title (q : Question) (qd : QuestionData) :
    (mergeQuestionData q qd).title =
      (match qd.title with
       | some v => if v ≠ "" then sanitizeString (some v) "" else q.title
       | none => q.title) := by
  rcases qd with ⟨qt, qdf, qu⟩
  rcases qt with - | v <;> rcases qdf with - | d <;> rcases qu with - | u <;>
    unfold mergeQuestionData <;> dsimp only <;> (repeat' split) <;> rfl

lemma mergeQuestionData_difficulty (q : Question) (qd : QuestionData) :
    (mergeQuestionData q qd).difficulty =
      (match qd.difficulty with
       | some d => if d ≠ "" then validateDifficulty (some d) else q.difficulty
       | none => q.difficulty) := by
  rcases qd with ⟨qt, qdf, qu⟩
  rcases qt with - | v <;> rcases qdf with - | d <;> rcases qu with - | u <;>
    unfold mergeQuestionData <;> dsimp only <;> (repeat' split) <;> rfl

lemma mergeQuestionData_url (q : Question) (qd : QuestionData) :
    (mergeQuestionData q qd).url =
      (match qd.url with
       | some u => validateUrl (some u)
       | none => q.url) := by
  rcases qd with ⟨qt, qdf, qu⟩
  rcases qt with - | v <;> rcases qdf with - | d <;> rcases qu with - | u <;>
    unfold mergeQuestionData <;> dsimp only <;> (repeat' split) <;> rfl

lemma mergeQuestionData_frame (q : Question) (qd : QuestionData) :
    (mergeQuestionData q qd).id = q.id ∧ (mergeQuestionData q qd).isSolved = q.isSolved ∧
    (mergeQuestionData q qd).order = q.order ∧ (mergeQuestionData q qd).notes = q.notes := by
  rcases qd with ⟨qt, qdf, qu⟩
  rcases qt with - | v <;> rcases qdf with - | d <;> rcases qu with - | u <;>
    unfold mergeQuestionData <;> dsimp only <;> (repeat' split) <;>
      exact ⟨rfl, rfl, rfl, rfl⟩

/-- C4 counterexample: with `partial = {title: ""}` the `title` field is
present yet `updateQuestion` leaves the stored title `"X"` unchanged,
while the claim requires replacement by the validated (sanitized) value,
which is `"" ≠ "X"`. -/
theorem updateQuestion_present_empty_title_counterexample :
    ((updateQuestion ex4 "t1" "s1" "q1" (some qdEmptyTitle)).topics.map
        (fun t => t.subtopics.map (fun sub => sub.questions.map Question.title)))
      = [[["X"]]] ∧
    qdEmptyTitle.title = some "" ∧
    sanitizeString (some "") "" ≠ "X" := by
  refine ⟨by rfl, rfl, by decide⟩

/-- C4 amended: `updateQuestion` merges `title`/`difficulty` only when
present and non-empty (truthy) and `url` whenever present, each after
validation, leaving every other field untouched; it rewrites exactly the
addressed question and is a no-op on the question data when no question
under the addressed topic and subtopic has the id. -/
theorem updateQuestion_merge_amended :
    ∀ (s : State) (tid sid qid : String) (qd : QuestionData),
      tid ≠ "" → sid ≠ "" → qid ≠ "" →
    ((∀ q : Question,
      ((qd.title = none ∨ qd.title = some "") → (mergeQuestionData q qd).title = q.title) ∧
      (∀ v, qd.title = some v → v ≠ "" →
        (mergeQuestionData q qd).title = sanitizeString (some v) "") ∧
      ((qd.difficulty = none ∨ qd.difficulty = some "") →
        (mergeQuestionData q qd).difficulty = q.difficulty) ∧
      (∀ d, qd.difficulty = some d → d ≠ "" →
        (mergeQuestionData q qd).difficulty = validateDifficulty (some d)) ∧
      (qd.url = none → (mergeQuestionData q qd).url = q.url) ∧
      (∀ u, qd.url = some u → (mergeQuestionData q qd).url = validateUrl (some u)) ∧
      ((mergeQuestionData q qd).id = q.id ∧ (mergeQuestionData q qd).isSolved = q.isSolved ∧
       (mergeQuestionData q qd).order = q.order ∧ (mergeQuestionData q qd).notes = q.notes)) ∧
     (∀ t ∈ s.topics, t.id = tid →
       ({ t with subtopics := t.subtopics.map (fun sub =>
           if sub.id ≠ sid then sub
           else { sub with questions := sub.questions.map (fun q =>
               if q.id ≠ qid then q else mergeQuestionData q qd) }) }) ∈
         (updateQuestion s tid sid qid (some qd)).topics) ∧
     ((∀ t ∈ s.topics, t.id = tid → ∀ sub ∈ t.subtopics, sub.id = sid →
         ∀ q ∈ sub.questions, q.id ≠ qid) →
       updateQuestion s tid sid qid (some qd) = s)) := by
  intro s tid sid qid qd htid hsid hqid
  have hg : ¬(tid = "" ∨ sid = "" ∨ qid = "") := by
    intro hc
    rcases hc with hc | hc | hc
    · exact htid hc
    · exact hsid hc
    · exact hqid hc
  refine ⟨?_, ?_, ?_⟩
  · intro q
    refine ⟨?_, ?_, ?_, ?_, ?_, ?_, mergeQuestionData_frame q qd⟩
    · rintro (h | h) <;> simp [mergeQuestionData_title, h]
    · intro v hv hv2
      simp [mergeQuestionData_title, hv, hv2]
    · rintro (h | h) <;> simp [mergeQuestionData_difficulty, h]
    · intro d hd hd2
      simp [mergeQuestionData_difficulty, hd, hd2]
    · intro h
      simp [mergeQuestionData_url, h]
    · intro u hu
      simp [mergeQuestionData_url, hu]
  · intro t ht htt
    simp only [updateQuestion, if_neg hg]
    have himg : (fun t0 : Topic =>
        if t0.id ≠ tid then t0
        else { t0 with subtopics := t0.subtopics.map (fun sub =>
            if sub.id ≠ sid then sub
            else { sub with questions := sub.questions.map (fun q =>
                if q.id ≠ qid then q else mergeQuestionData q qd) }) }) t =
        { t with subtopics := t.subtopics.map (fun sub =>
            if sub.id ≠ sid then sub
            else { sub with questions := sub.questions.map (fun q =>
                if q.id ≠ qid then q else mergeQuestionData q qd) }) } := by
      have hne : ¬(t.id ≠ tid) := by simp [htt]
      simp only [if_neg hne]
    rw [← himg]
    exact List.mem_map_of_mem _ ht
  · intro h
    simp only [updateQuestion, if_neg hg]
    refine Eq.trans (congrArg (fun l => { s with topics := l })
      (map_eq_self_of _ _ ?_)) (state_eta_topics s)
    intro t ht
    by_cases htid2 : t.id ≠ tid
    · simp [htid2]
    · push_neg at htid2
      have hne : ¬(t.id ≠ tid) := by simp [htid2]
      rw [if_neg hne]
      have hsubs : t.subtopics.map (fun sub =>
          if sub.id ≠ sid then sub
          else { sub with questions := sub.questions.map (fun q =>
              if q.id ≠ qid then q else mergeQuestionData q qd) }) = t.subtopics := by
        apply map_eq_self_of
        intro sub hsub
        by_cases hsid2 : sub.id ≠ sid
        · simp [hsid2]
        · push_neg at hsid2
          have hne2 : ¬(sub.id ≠ sid) := by simp [hsid2]
          rw [if_neg hne2]
          have hqs : sub.questions.map (fun q =>
              if q.id ≠ qid then q else mergeQuestionData q qd) = sub.questions := by
            apply map_eq_self_of
            intro q hq
            have := h t ht htid2 sub hsub hsid2 q hq
            simp [this]
          rw [hqs]
      rw [hsubs]

/-- C4 amended witness: applying the full update `qdFull` to the stored
question replaces all three fields with their validated values. -/
theorem updateQuestion_merge_amended_witness :
    (mergeQuestionData exQ1 qdFull).title = sanitizeString (some " Two Sum ") "" ∧
    (mergeQuestionData exQ1 qdFull).difficulty = validateDifficulty (some "Hard") ∧
    (mergeQuestionData exQ1 qdFull).url = validateUrl (some "https://x.io/p") ∧
    (mergeQuestionData exQ1 qdFull).isSolved = exQ1.isSolved := by
  have h := (updateQuestion_merge_amended ex4 "t1" "s1" "q1" qdFull
    (by decide) (by decide) (by decide)).1 exQ1
  exact ⟨h.2.1 " Two Sum " rfl (by decide), h.2.2.2.1 "Hard" rfl (by decide),
    h.2.2.2.2.2.1 "https://x.io/p" rfl, h.2.2.2.2.2.2.2.1⟩

lemma getElem_of_getElemQm {l : List α} {i : Nat} {x : α} (hx : l[i]? = some x) :
    ∃ h : i < l.length, l.get ⟨i, h⟩ = x := by
  have hlt : i < l.length := by
    by_contra hc
    push_neg at hc
    rw [List.getElem?_eq_none hc] at hx
    exact Option.noConfusion hx
  refine ⟨hlt, ?_⟩
  have h1 : l[i]? = some l[i] := List.getElem?_eq_getElem hlt
  rw [h1] at hx
  simpa using hx

lemma reorderArray_move_perm (w : Nat → α → α) (strip : α → α)
    (hw : ∀ i a, strip (w i a) = strip a) (l : List α) (i j : Nat)
    (hi : i < l.length) (hj : j < l.length) :
    (reorderArray w l (i : Int) (j : Int)).length = l.length ∧
    ((reorderArray w l (i : Int) (j : Int)).map strip).Perm (l.map strip) := by
  by_cases hij : i = j
  · subst hij
    have hr : reorderArray w l (i : Int) (i : Int) = l := by simp [reorderArray]
    rw [hr]
    exact ⟨rfl, List.Perm.refl _⟩
  · have hx : l[i]? = some l[i] := List.getElem?_eq_getElem hi
    rw [reorderArray_eq_move w l i j _ hx hij]
    have hm : ((l.eraseIdx i).insertIdx j l[i]).length = l.length :=
      length_move l i j _ hi hj
    have herase : (l.eraseIdx i).length = l.length - 1 := List.length_eraseIdx_of_lt hi
    constructor
    · simp [hm]
    · rw [map_mapIdx_strip w strip hw]
      have h1 : ((l.eraseIdx i).insertIdx j l[i]).Perm (l[i] :: l.eraseIdx i) := by
        apply perm_insertIdx
        omega
      have h2 : l.Perm (l[i] :: l.eraseIdx i) := perm_get_cons_eraseIdx l i hi
      exact (h1.map strip).trans ((h2.map strip).symm)

/-- C10: `reorderArray` (at each of the three tree levels) returns a
permutation of its input: same length, and the same multiset of elements
once the rewritten `order` field is disregarded — nothing is duplicated,
dropped or otherwise modified. -/
theorem reorderArray_is_permutation :
    ∀ (qs : List Question) (ss : List Subtopic) (ts : List Topic) (i j : Nat),
    (i < qs.length → j < qs.length →
      (reorderArray questionWithOrder qs (i : Int) (j : Int)).length = qs.length ∧
      ((reorderArray questionWithOrder qs (i : Int) (j : Int)).map questionEraseOrder).Perm
        (qs.map questionEraseOrder)) ∧
    (i < ss.length → j < ss.length →
      (reorderArray subtopicWithOrder ss (i : Int) (j : Int)).length = ss.length ∧
      ((reorderArray subtopicWithOrder ss (i : Int) (j : Int)).map subtopicEraseOrder).Perm
        (ss.map subtopicEraseOrder)) ∧
    (i < ts.length → j < ts.length →
      (reorderArray topicWithOrder ts (i : Int) (j : Int)).length = ts.length ∧
      ((reorderArray topicWithOrder ts (i : Int) (j : Int)).map topicEraseOrder).Perm
        (ts.map topicEraseOrder)) := by
  intro qs ss ts i j
  refine ⟨fun hi hj => ?_, fun hi hj => ?_, fun hi hj => ?_⟩
  · exact reorderArray_move_perm questionWithOrder questionEraseOrder
      (fun _ _ => rfl) qs i j hi hj
  · exact reorderArray_move_perm subtopicWithOrder subtopicEraseOrder
      (fun _ _ => rfl) ss i j hi hj
  · exact reorderArray_move_perm topicWithOrder topicEraseOrder
      (fun _ _ => rfl) ts i j hi hj

/-- C10 witness: moving index 0 to index 1 in a concrete two-question
list preserves length and the order-stripped multiset. -/
theorem reorderArray_is_permutation_witness :
    (reorderArray questionWithOrder [exQ1, exQ2] ((0 : Nat) : Int) ((1 : Nat) : Int)).length = 2 ∧
    ((reorderArray questionWithOrder [exQ1, exQ2] ((0 : Nat) : Int) ((1 : Nat) : Int)).map
        questionEraseOrder).Perm ([exQ1, exQ2].map questionEraseOrder) :=
  (reorderArray_is_permutation [exQ1, exQ2] [] [] 0 1).1 (by decide) (by decide)

lemma findIndexList_ids_ne {β : Type} {l : List β} {f : β → String} {a b : String}
    {i j : Nat}
    (ha : findIndexList (fun x => f x == a) l = some i)
    (hb : findIndexList (fun x => f x == b) l = some j)
    (hab : a ≠ b) : i ≠ j := by
  intro he
  subst he
  obtain ⟨h1, hg1⟩ := findIndexList_some _ l i ha
  obtain ⟨h2, hg2⟩ := findIndexList_some _ l i hb
  have ha2 : f (l.get ⟨i, h1⟩) = a := by simpa using hg1
  have hb2 : f (l.get ⟨i, h1⟩) = b := by simpa using hg2
  exact hab (ha2.symm.trans hb2)

/-- C1: each reorder operation removes the element at the source index,
reinserts it at the destination index (a single-element move), and
renumbers the touched sibling group positionally, so the `order` values
are exactly `0..n-1`; on ids `[A,B,C,D]` with orders `[0,1,2,3]`, moving
`A` to `C`'s position yields `[B,C,A,D]` with orders `[0,1,2,3]`. -/
theorem reorder_moves_and_renumbers :
    (∀ (s : State) (a b : String) (i j : Nat) (moved : Topic),
      a ≠ "" → b ≠ "" → a ≠ b →
      findIndexList (fun t => t.id == a) s.topics = some i →
      findIndexList (fun t => t.id == b) s.topics = some j →
      s.topics[i]? = some moved →
      (reorderTopics s a b).topics =
        ((s.topics.eraseIdx i).insertIdx j moved).mapIdx topicWithOrder ∧
      (reorderTopics s a b).topics.map Topic.order = List.range s.topics.length) ∧
    (∀ (s : State) (tid a b : String) (t : Topic) (i j : Nat) (moved : Subtopic),
      tid ≠ "" → a ≠ "" → b ≠ "" → a ≠ b →
      t ∈ s.topics → t.id = tid →
      findIndexList (fun x => x.id == a) t.subtopics = some i →
      findIndexList (fun x => x.id == b) t.subtopics = some j →
      t.subtopics[i]? = some moved →
      ({ t with subtopics := ((t.subtopics.eraseIdx i).insertIdx j moved).mapIdx subtopicWithOrder }
          ∈ (reorderSubtopics s tid a b).topics ∧
        (((t.subtopics.eraseIdx i).insertIdx j moved).mapIdx subtopicWithOrder).map Subtopic.order =
          List.range t.subtopics.length)) ∧
    (∀ (s : State) (tid sid a b : String) (t : Topic) (sub : Subtopic) (i j : Nat)
        (moved : Question),
      tid ≠ "" → sid ≠ "" → a ≠ "" → b ≠ "" → a ≠ b →
      t ∈ s.topics → t.id = tid → sub ∈ t.subtopics → sub.id = sid →
      findIndexList (fun q => q.id == a) sub.questions = some i →
      findIndexList (fun q => q.id == b) sub.questions = some j →
      sub.questions[i]? = some moved →
      ((∃ t2 ∈ (reorderQuestions s tid sid a b).topics,
          { sub with questions :=
              ((sub.questions.eraseIdx i).insertIdx j moved).mapIdx questionWithOrder }
            ∈ t2.subtopics) ∧
        (((sub.questions.eraseIdx i).insertIdx j moved).mapIdx questionWithOrder).map
            Question.order = List.range sub.questions.length)) ∧
    ((reorderTopics st4 "A" "C").topics.map (fun t => (t.id, t.order)) =
      [("B", 0), ("C", 1), ("A", 2), ("D", 3)]) := by
  refine ⟨?_, ?_, ?_, by rfl⟩
  · intro s a b i j moved ha hb hab hfi hfj hx
    obtain ⟨hilt, -⟩ := findIndexList_some _ _ _ hfi
    obtain ⟨hjlt, -⟩ := findIndexList_some _ _ _ hfj
    have hij : i ≠ j := findIndexList_ids_ne hfi hfj hab
    have hg : ¬(a = "" ∨ b = "" ∨ a = b) := by
      push_neg
      exact ⟨ha, hb, hab⟩
    have hOld := jsFindIndex_of_some hfi
    have hNew := jsFindIndex_of_some hfj
    have hcond : ((i : Nat) : Int) ≠ -1 ∧ ((j : Nat) : Int) ≠ -1 := by
      constructor <;> omega
    have hres : (reorderTopics s a b).topics =
        reorderArray topicWithOrder s.topics ((i : Nat) : Int) ((j : Nat) : Int) := by
      simp only [reorderTopics, if_neg hg, hOld, hNew, if_pos hcond]
    rw [hres, reorderArray_eq_move _ _ i j moved hx hij]
    refine ⟨rfl, ?_⟩
    rw [map_mapIdx_ord topicWithOrder Topic.order (fun i0 t0 => rfl),
      length_move s.topics i j moved hilt hjlt]
  · intro s tid a b t i j moved htid ha hb hab ht htt hfi hfj hx
    obtain ⟨hilt, -⟩ := findIndexList_some _ _ _ hfi
    obtain ⟨hjlt, -⟩ := findIndexList_some _ _ _ hfj
    have hij : i ≠ j := findIndexList_ids_ne hfi hfj hab
    have hg : ¬(tid = "" ∨ a = "" ∨ b = "" ∨ a = b) := by
      push_neg
      exact ⟨htid, ha, hb, hab⟩
    have hOld := jsFindIndex_of_some hfi
    have hNew := jsFindIndex_of_some hfj
    have hcond : ¬(jsFindIndex (fun x => x.id == a) t.subtopics = -1 ∨
        jsFindIndex (fun x => x.id == b) t.subtopics = -1) := by
      rw [hOld, hNew]
      push_neg
      constructor <;> omega
    constructor
    · simp only [reorderSubtopics, if_neg hg]
      have hne : ¬(t.id ≠ tid) := by simp [htt]
      refine List.mem_map.mpr ⟨t, ht, ?_⟩
      rw [if_neg hne, if_neg hcond, hOld, hNew,
        reorderArray_eq_move _ _ i j moved hx hij]
    · rw [map_mapIdx_ord subtopicWithOrder Subtopic.order (fun i0 s0 => rfl),
        length_move t.subtopics i j moved hilt hjlt]
  · intro s tid sid a b t sub i j moved htid hsid ha hb hab ht htt hsub hss hfi hfj hx
    obtain ⟨hilt, -⟩ := findIndexList_some _ _ _ hfi
    obtain ⟨hjlt, -⟩ := findIndexList_some _ _ _ hfj
    have hij : i ≠ j := findIndexList_ids_ne hfi hfj hab
    have hg : ¬(tid = "" ∨ sid = "" ∨ a = "" ∨ b = "" ∨ a = b) := by
      push_neg
      exact ⟨htid, hsid, ha, hb, hab⟩
    have hOld := jsFindIndex_of_some hfi
    have hNew := jsFindIndex_of_some hfj
    have hcond : ¬(jsFindIndex (fun q => q.id == a) sub.questions = -1 ∨
        jsFindIndex (fun q => q.id == b) sub.questions = -1) := by
      rw [hOld, hNew]
      push_neg
      constructor <;> omega
    constructor
    · simp only [reorderQuestions, if_neg hg]
      have hne : ¬(t.id ≠ tid) := by simp [htt]
      have hne2 : ¬(sub.id ≠ sid) := by simp [hss]
      refine ⟨_, List.mem_map_of_mem _ ht, ?_⟩
      dsimp only
      rw [if_neg hne]
      dsimp only
      refine List.mem_map.mpr ⟨sub, hsub, ?_⟩
      rw [if_neg hne2, if_neg hcond, hOld, hNew,
        reorderArray_eq_move _ _ i j moved hx hij]
    · rw [map_mapIdx_ord questionWithOrder Question.order (fun i0 q0 => rfl),
        length_move sub.questions i j moved hilt hjlt]

/-- C1 witness: the concrete `[A,B,C,D]` move applied through the
general theorem. -/
theorem reorder_moves_and_renumbers_witness :
    (reorderTopics st4 "A" "C").topics =
      ((st4.topics.eraseIdx 0).insertIdx 2 (mkBareTopic "A" 0)).mapIdx topicWithOrder ∧
    (reorderTopics st4 "A" "C").topics.map Topic.order = List.range st4.topics.length :=
  reorder_moves_and_renumbers.1 st4 "A" "C" 0 2 (mkBareTopic "A" 0)
    (by decide) (by decide) (by decide) (by rfl) (by rfl) (by rfl)

lemma validateDifficulty_mem (x : Option String) : validateDifficulty x ∈ validDifficulties := by
  rcases x with - | d
  · simp [validateDifficulty, validDifficulties]
  · unfold validateDifficulty
    dsimp only
    by_cases h : d ∈ validDifficulties
    · rw [if_pos h]; exact h
    · rw [if_neg h]; simp [validDifficulties]

lemma validateDifficulty_four (x : Option String) :
    validateDifficulty x = "Easy" ∨ validateDifficulty x = "Medium" ∨
    validateDifficulty x = "Hard" ∨ validateDifficulty x = "Basic" := by
  have h := validateDifficulty_mem x
  simpa [validDifficulties] using h

lemma statsAddQuestion_net (acc : Stats × TopicStats) (q : Question) :
    (statsAddQuestion acc q).1.total = acc.1.total + 1 ∧
    diffTotalSum (statsAddQuestion acc q).1 = diffTotalSum acc.1 + 1 ∧
    (statsAddQuestion acc q).1.byTopic = acc.1.byTopic ∧
    (statsAddQuestion acc q).2.total = acc.2.total + 1 ∧
    (statsAddQuestion acc q).1.solved = acc.1.solved + (if q.isSolved then 1 else 0) ∧
    diffSolvedSum (statsAddQuestion acc q).1 =
      diffSolvedSum acc.1 + (if q.isSolved then 1 else 0) ∧
    (statsAddQuestion acc q).2.solved = acc.2.solved + (if q.isSolved then 1 else 0) ∧
    (statsAddQuestion acc q).2.name = acc.2.name := by
  by_cases hq : q.isSolved <;>
    rcases validateDifficulty_four (some q.difficulty) with h4 | h4 | h4 | h4 <;>
    simp [statsAddQuestion, h4, hq, bumpDiffTotal, bumpDiffSolved,
      diffTotalSum, diffSolvedSum] <;>
    omega

lemma foldl_statsAddQuestion :
    ∀ (qs : List Question) (acc : Stats × TopicStats),
    (qs.foldl statsAddQuestion acc).1.total = acc.1.total + qs.length ∧
    diffTotalSum (qs.foldl statsAddQuestion acc).1 = diffTotalSum acc.1 + qs.length ∧
    (qs.foldl statsAddQuestion acc).1.byTopic = acc.1.byTopic ∧
    (qs.foldl statsAddQuestion acc).2.total = acc.2.total + qs.length ∧
    (qs.foldl statsAddQuestion acc).1.solved =
      acc.1.solved + qs.countP (fun q => q.isSolved) ∧
    diffSolvedSum (qs.foldl statsAddQuestion acc).1 =
      diffSolvedSum acc.1 + qs.countP (fun q => q.isSolved) ∧
    (qs.foldl statsAddQuestion acc).2.solved =
      acc.2.solved + qs.countP (fun q => q.isSolved) ∧
    (qs.foldl statsAddQuestion acc).2.name = acc.2.name := by
  intro qs
  induction qs with
  | nil => intro acc; simp
  | cons q qs ih =>
    intro acc
    obtain ⟨a1, a2, a3, a4, a5, a6, a7, a8⟩ := statsAddQuestion_net acc q
    obtain ⟨b1, b2, b3, b4, b5, b6, b7, b8⟩ := ih (statsAddQuestion acc q)
    simp only [List.foldl_cons, List.countP_cons, List.length_cons]
    by_cases hq : q.isSolved <;> simp only [hq, if_true, if_false] at a5 a6 a7 ⊢ <;>
      exact ⟨by omega, by omega, b3.trans a3, by omega, by omega, by omega, by omega,
        b8.trans a8⟩

lemma foldl_statsAddSubtopic :
    ∀ (subs : List Subtopic) (acc : Stats × TopicStats),
    (subs.foldl statsAddSubtopic acc).1.total =
      acc.1.total + (subs.map (fun sub => sub.questions.length)).sum ∧
    diffTotalSum (subs.foldl statsAddSubtopic acc).1 =
      diffTotalSum acc.1 + (subs.map (fun sub => sub.questions.length)).sum ∧
    (subs.foldl statsAddSubtopic acc).1.byTopic = acc.1.byTopic ∧
    (subs.foldl statsAddSubtopic acc).2.total =
      acc.2.total + (subs.map (fun sub => sub.questions.length)).sum ∧
    (subs.foldl statsAddSubtopic acc).1.solved =
      acc.1.solved + (subs.map (fun sub => sub.questions.countP (fun q => q.isSolved))).sum ∧
    diffSolvedSum (subs.foldl statsAddSubtopic acc).1 =
      diffSolvedSum acc.1 +
        (subs.map (fun sub => sub.questions.countP (fun q => q.isSolved))).sum ∧
    (subs.foldl statsAddSubtopic acc).2.solved =
      acc.2.solved + (subs.map (fun sub => sub.questions.countP (fun q => q.isSolved))).sum ∧
    (subs.foldl statsAddSubtopic acc).2.name = acc.2.name := by
  intro subs
  induction subs with
  | nil => intro acc; simp
  | cons sub subs ih =>
    intro acc
    obtain ⟨a1, a2, a3, a4, a5, a6, a7, a8⟩ :=
      foldl_statsAddQuestion sub.questions acc
    obtain ⟨b1, b2, b3, b4, b5, b6, b7, b8⟩ := ih (statsAddSubtopic acc sub)
    have hstep : statsAddSubtopic acc sub = sub.questions.foldl statsAddQuestion acc := rfl
    rw [hstep] at b1 b2 b3 b4 b5 b6 b7 b8
    simp only [List.foldl_cons, List.map_cons, List.sum_cons, hstep]
    exact ⟨by omega, by omega, b3.trans a3, by omega, by omega, by omega, by omega,
      b8.trans a8⟩

lemma statsAddTopic_net (st : Stats) (t : Topic) :
    (statsAddTopic st t).total = st.total + topicTotal t ∧
    diffTotalSum (statsAddTopic st t) = diffTotalSum st + topicTotal t ∧
    (statsAddTopic st t).solved = st.solved + topicSolvedCount t ∧
    diffSolvedSum (statsAddTopic st t) = diffSolvedSum st + topicSolvedCount t ∧
    byTopicTotalSum (statsAddTopic st t) = byTopicTotalSum st + topicTotal t ∧
    byTopicSolvedSum (statsAddTopic st t) = byTopicSolvedSum st + topicSolvedCount t := by
  obtain ⟨c1, c2, c3, c4, c5, c6, c7, c8⟩ :=
    foldl_statsAddSubtopic t.subtopics (st, { name := t.name, total := 0, solved := 0 })
  simp only [statsAddTopic, topicTotal, topicSolvedCount, diffTotalSum, diffSolvedSum,
    byTopicTotalSum, byTopicSolvedSum] at c1 c2 c3 c4 c5 c6 c7 c8 ⊢
  rw [c3]
  simp only [List.map_append, List.sum_append, List.map_cons, List.sum_cons,
    List.map_nil, List.sum_nil]
  omega

lemma foldl_statsAddTopic :
    ∀ (ts : List Topic) (st : Stats),
    diffTotalSum st = st.total → byTopicTotalSum st = st.total →
    diffSolvedSum st = st.solved → byTopicSolvedSum st = st.solved →
    (diffTotalSum (ts.foldl statsAddTopic st) = (ts.foldl statsAddTopic st).total ∧
     byTopicTotalSum (ts.foldl statsAddTopic st) = (ts.foldl statsAddTopic st).total ∧
     diffSolvedSum (ts.foldl statsAddTopic st) = (ts.foldl statsAddTopic st).solved ∧
     byTopicSolvedSum (ts.foldl statsAddTopic st) = (ts.foldl statsAddTopic st).solved) := by
  intro ts
  induction ts with
  | nil => intro st h1 h2 h3 h4; exact ⟨h1, h2, h3, h4⟩
  | cons t ts ih =>
    intro st h1 h2 h3 h4
    obtain ⟨n1, n2, n3, n4, n5, n6⟩ := statsAddTopic_net st t
    simp only [List.foldl_cons]
    exact ih (statsAddTopic st t) (by omega) (by omega) (by omega) (by omega)

/-- C5: for every tree, the four per-difficulty `total` buckets sum to
the overall `total`, the per-topic totals sum to the overall `total`,
and the same two equations hold for `solved`. -/
theorem stats_totals_consistent :
    ∀ topics : List Topic,
    diffTotalSum (calculateDetailedStats topics) = (calculateDetailedStats topics).total ∧
    byTopicTotalSum (calculateDetailedStats topics) = (calculateDetailedStats topics).total ∧
    diffSolvedSum (calculateDetailedStats topics) = (calculateDetailedStats topics).solved ∧
    byTopicSolvedSum (calculateDetailedStats topics) = (calculateDetailedStats topics).solved := by
  intro topics
  exact foldl_statsAddTopic topics initialStats rfl rfl rfl rfl

lemma containsSub_empty (hay : List Char) : containsSub hay [] = true := by
  induction hay with
  | nil => rfl
  | cons c t ih => simp [containsSub, List.isPrefixOf]

lemma filterQuestions_eq_spec (qs : List Question)
    (searchQuery filterDifficulty filterStatus : String)
    (hd : filterDifficulty = FILTER_ALL ∨ filterDifficulty ∈ validDifficulties)
    (hs : filterStatus = FILTER_ALL ∨ filterStatus = FILTER_SOLVED ∨
      filterStatus = FILTER_UNSOLVED) :
    filterQuestions qs searchQuery filterDifficulty filterStatus =
      qs.filter (specFilterPred searchQuery filterDifficulty filterStatus) := by
  unfold filterQuestions
  apply List.filter_congr
  intro q hq
  have hsearch : (jsTrim (jsToLower searchQuery) ≠ "" ∧
      ¬(jsIncludes (jsToLower q.title) (jsTrim (jsToLower searchQuery)) = true)) ∨
      containsSub (jsToLower q.title).data (jsTrim (jsToLower searchQuery)).data = true := by
    by_cases he : jsTrim (jsToLower searchQuery) = ""
    · refine Or.inr ?_
      have : (jsTrim (jsToLower searchQuery)).data = [] := by rw [he]
      rw [this]
      exact containsSub_empty _
    · by_cases hi : jsIncludes (jsToLower q.title) (jsTrim (jsToLower searchQuery)) = true
      · exact Or.inr hi
      · exact Or.inl ⟨he, hi⟩
  have hdm : filterDifficulty = "all" ∨ filterDifficulty = "Easy" ∨
      filterDifficulty = "Medium" ∨ filterDifficulty = "Hard" ∨
      filterDifficulty = "Basic" := by
    rcases hd with h | h
    · exact Or.inl h
    · simp [validDifficulties] at h
      tauto
  rcases hsearch with ⟨he, hi⟩ | hinc
  · rw [if_pos ⟨he, hi⟩]
    have : containsSub (jsToLower q.title).data (jsTrim (jsToLower searchQuery)).data = false := by
      simpa [jsIncludes] using hi
    simp [specFilterPred, this]
  · have hinc2 : jsIncludes (jsToLower q.title) (jsTrim (jsToLower searchQuery)) = true := by
      simpa [jsIncludes] using hinc
    have h1 : ¬(jsTrim (jsToLower searchQuery) ≠ "" ∧
        ¬(jsIncludes (jsToLower q.title) (jsTrim (jsToLower searchQuery)) = true)) := by
      intro hc
      exact hc.2 hinc2
    rw [if_neg h1]
    by_cases hqd : q.difficulty = filterDifficulty <;>
      rcases hdm with rfl | rfl | rfl | rfl | rfl <;>
      rcases hs with rfl | rfl | rfl <;>
      rcases hsol : q.isSolved <;>
      simp_all [specFilterPred, FILTER_ALL, FILTER_SOLVED, FILTER_UNSOLVED]

/-- C6: `filterQuestions` returns exactly the questions satisfying the
conjunction of the search, difficulty and status predicates (for a
difficulty filter that is `all` or canonical, and a status filter that
is `all`, `solved` or `unsolved`); the result is a sublist of the input
(a derived view: the input and its questions are values and cannot be
mutated). -/
theorem filterQuestions_characterization :
    ∀ (qs : List Question) (searchQuery filterDifficulty filterStatus : String),
    (filterDifficulty = FILTER_ALL ∨ filterDifficulty ∈ validDifficulties) →
    (filterStatus = FILTER_ALL ∨ filterStatus = FILTER_SOLVED ∨
      filterStatus = FILTER_UNSOLVED) →
    ((filterQuestions qs searchQuery filterDifficulty filterStatus).Sublist qs ∧
     filterQuestions qs searchQuery filterDifficulty filterStatus =
       qs.filter (specFilterPred searchQuery filterDifficulty filterStatus) ∧
     ∀ q, q ∈ filterQuestions qs searchQuery filterDifficulty filterStatus ↔
       (q ∈ qs ∧ specFilterPred searchQuery filterDifficulty filterStatus q = true)) := by
  intro qs searchQuery filterDifficulty filterStatus hd hs
  have heq := filterQuestions_eq_spec qs searchQuery filterDifficulty filterStatus hd hs
  refine ⟨?_, heq, ?_⟩
  · rw [heq]
    exact List.filter_sublist qs
  · intro q
    rw [heq]
    exact List.mem_filter

/-- C6 witness: the spec's filter-composition fixture, through the
characterization theorem; the filtered view is the single match. -/
theorem filterQuestions_characterization_witness :
    (filterQuestions qs4 "two sum" "Easy" "unsolved").Sublist qs4 ∧
    filterQuestions qs4 "two sum" "Easy" "unsolved" =
      qs4.filter (specFilterPred "two sum" "Easy" "unsolved") ∧
    filterQuestions qs4 "two sum" "Easy" "unsolved" = [exQTwoSum] := by
  have h := filterQuestions_characterization qs4 "two sum" "Easy" "unsolved"
    (Or.inr (by decide)) (Or.inr (Or.inr rfl))
  exact ⟨h.1, h.2.1, by rfl⟩

lemma mem_foldl_insName (l : List String) :
    ∀ (acc : List String) (a : String), a ∈ l.foldl insName acc ↔ a ∈ acc ∨ a ∈ l := by
  induction l with
  | nil => simp
  | cons x xs ih =>
    intro acc a
    simp only [List.foldl_cons]
    rw [ih]
    unfold insName
    by_cases hx : x ∈ acc
    · rw [if_pos hx]
      simp only [List.mem_cons]
      constructor
      · rintro (h | h)
        · exact Or.inl h
        · exact Or.inr (Or.inr h)
      · rintro (h | rfl | h)
        · exact Or.inl h
        · exact Or.inl hx
        · exact Or.inr h
    · rw [if_neg hx]
      simp only [List.mem_append, List.mem_cons, List.mem_singleton]
      tauto

lemma mem_firstSeen (l : List String) (a : String) : a ∈ firstSeen l ↔ a ∈ l := by
  unfold firstSeen
  rw [mem_foldl_insName]
  simp

lemma firstSeen_append_one (l : List String) (x : String) :
    firstSeen (l ++ [x]) = insName (firstSeen l) x := by
  unfold firstSeen
  rw [List.foldl_append]
  rfl

lemma ensureSub_name (t : Topic) (sn : String) : (ingestEnsureSubtopic t sn).name = t.name := by
  unfold ingestEnsureSubtopic
  split <;> rfl

lemma ensureSub_order (t : Topic) (sn : String) : (ingestEnsureSubtopic t sn).order = t.order := by
  unfold ingestEnsureSubtopic
  split <;> rfl

lemma pushQ_name (t : Topic) (sn : String) (mkQ : Nat → Question) :
    (ingestPushQuestion t sn mkQ).name = t.name := rfl

lemma pushQ_order (t : Topic) (sn : String) (mkQ : Nat → Question) :
    (ingestPushQuestion t sn mkQ).order = t.order := rfl

lemma pushQ_subnames (t : Topic) (sn : String) (mkQ : Nat → Question) :
    (ingestPushQuestion t sn mkQ).subtopics.map Subtopic.name =
      t.subtopics.map Subtopic.name := by
  unfold ingestPushQuestion
  dsimp only
  rw [List.map_map]
  apply List.map_congr_left
  intro sub hsub
  by_cases h : sub.name == sn
  · simp only [Function.comp, if_pos h]
  · simp only [Function.comp, if_neg h]

lemma pushQ_suborders (t : Topic) (sn : String) (mkQ : Nat → Question) :
    (ingestPushQuestion t sn mkQ).subtopics.map Subtopic.order =
      t.subtopics.map Subtopic.order := by
  unfold ingestPushQuestion
  dsimp only
  rw [List.map_map]
  apply List.map_congr_left
  intro sub hsub
  by_cases h : sub.name == sn
  · simp only [Function.comp, if_pos h]
  · simp only [Function.comp, if_neg h]

lemma ensureTopic_any_iff (tmap : List Topic) (tn : String) :
    tmap.any (fun t => t.name == tn) = true ↔ tn ∈ tmap.map Topic.name := by
  rw [List.any_eq_true]
  simp only [List.mem_map, beq_iff_eq]

lemma ensureTopic_names (tmap : List Topic) (tn : String) :
    (ingestEnsureTopic tmap tn).map Topic.name = insName (tmap.map Topic.name) tn := by
  unfold ingestEnsureTopic insName
  by_cases h : tn ∈ tmap.map Topic.name
  · rw [if_pos ((ensureTopic_any_iff tmap tn).mpr h), if_pos h]
  · rw [if_neg (fun hc => h ((ensureTopic_any_iff tmap tn).mp hc)), if_neg h]
    simp

lemma ensureTopic_orders (tmap : List Topic) (tn : String)
    (h : tmap.map Topic.order = List.range tmap.length) :
    (ingestEnsureTopic tmap tn).map Topic.order =
      List.range (ingestEnsureTopic tmap tn).length := by
  unfold ingestEnsureTopic
  split
  · exact h
  · simp [h, List.range_succ]

lemma ensureTopic_mem {tmap : List Topic} {tn : String} {t : Topic}
    (ht : t ∈ ingestEnsureTopic tmap tn) :
    t ∈ tmap ∨ (t.name = tn ∧ t.subtopics = [] ∧ tn ∉ tmap.map Topic.name) := by
  unfold ingestEnsureTopic at ht
  by_cases h : tmap.any (fun t0 => t0.name == tn) = true
  · rw [if_pos h] at ht
    exact Or.inl ht
  · rw [if_neg h] at ht
    rcases List.mem_append.mp ht with h2 | h2
    · exact Or.inl h2
    · have h3 : tn ∉ tmap.map Topic.name := fun hc => h ((ensureTopic_any_iff tmap tn).mpr hc)
      simp only [List.mem_singleton] at h2
      subst h2
      exact Or.inr ⟨rfl, rfl, h3⟩

lemma ensureSub_subnames (t : Topic) (sn : String) :
    (ingestEnsureSubtopic t sn).subtopics.map Subtopic.name =
      insName (t.subtopics.map Subtopic.name) sn := by
  unfold ingestEnsureSubtopic insName
  have hiff : t.subtopics.any (fun s => s.name == sn) = true ↔
      sn ∈ t.subtopics.map Subtopic.name := by
    rw [List.any_eq_true]
    simp only [List.mem_map, beq_iff_eq]
  by_cases h : sn ∈ t.subtopics.map Subtopic.name
  · rw [if_pos (hiff.mpr h), if_pos h]
  · rw [if_neg (fun hc => h (hiff.mp hc)), if_neg h]
    simp

lemma ensureSub_suborders (t : Topic) (sn : String)
    (h : t.subtopics.map Subtopic.order = List.range t.subtopics.length) :
    (ingestEnsureSubtopic t sn).subtopics.map Subtopic.order =
      List.range (ingestEnsureSubtopic t sn).subtopics.length := by
  unfold ingestEnsureSubtopic
  split
  · exact h
  · dsimp only
    simp [h, List.range_succ]

lemma ensureSub_mem {t : Topic} {sn : String} {sub : Subtopic}
    (hs : sub ∈ (ingestEnsureSubtopic t sn).subtopics) :
    sub ∈ t.subtopics ∨
      (sub.name = sn ∧ sub.questions = [] ∧ sn ∉ t.subtopics.map Subtopic.name) := by
  unfold ingestEnsureSubtopic at hs
  have hiff : t.subtopics.any (fun s => s.name == sn) = true ↔
      sn ∈ t.subtopics.map Subtopic.name := by
    rw [List.any_eq_true]
    simp only [List.mem_map, beq_iff_eq]
  by_cases h : t.subtopics.any (fun s => s.name == sn) = true
  · rw [if_pos h] at hs
    exact Or.inl hs
  · rw [if_neg h] at hs
    dsimp only at hs
    rcases List.mem_append.mp hs with h2 | h2
    · exact Or.inl h2
    · simp only [List.mem_singleton] at h2
      subst h2
      exact Or.inr ⟨rfl, rfl, fun hc => h (hiff.mpr hc)⟩

/-- Net shape of one ingest iteration: ensure the topic, then inside the
matching topic ensure the subtopic and append a question built with the
running order. -/
lemma ingestStep_shape (tmap : List Topic) (c : Nat) (q : RawQuestion) :
    ∃ mk : Nat → Question,
      (ingestStep (tmap, c) q).1 =
        (ingestEnsureTopic tmap (qTopicName q)).map (fun t =>
          if t.name == qTopicName q then
            ingestPushQuestion (ingestEnsureSubtopic t (qSubName q)) (qSubName q) mk
          else t) ∧
      (∀ n, (mk n).order = n) :=
  ⟨_, rfl, fun _ => rfl⟩

lemma step_inv_generic (processed : List RawQuestion) (tmap : List Topic)
    (q : RawQuestion) (mk : Nat → Question) (hmk : ∀ n, (mk n).order = n)
    (hinv : IngestInv processed tmap) :
    IngestInv (processed ++ [q])
      ((ingestEnsureTopic tmap (qTopicName q)).map (fun t =>
        if t.name == qTopicName q then
          ingestPushQuestion (ingestEnsureSubtopic t (qSubName q)) (qSubName q) mk
        else t)) := by
  obtain ⟨i1, i2, i3, i4, i5, i6⟩ := hinv
  have hFname : ∀ t : Topic,
      ((if t.name == qTopicName q then
        ingestPushQuestion (ingestEnsureSubtopic t (qSubName q)) (qSubName q) mk
      else t)).name = t.name := by
    intro t
    by_cases h : t.name == qTopicName q
    · rw [if_pos h, pushQ_name, ensureSub_name]
    · rw [if_neg h]
  have hForder : ∀ t : Topic,
      ((if t.name == qTopicName q then
        ingestPushQuestion (ingestEnsureSubtopic t (qSubName q)) (qSubName q) mk
      else t)).order = t.order := by
    intro t
    by_cases h : t.name == qTopicName q
    · rw [if_pos h, pushQ_order, ensureSub_order]
    · rw [if_neg h]
  refine ⟨?_, ?_, ?_, ?_, ?_, ?_⟩
  · rw [List.map_map]
    have hcomp : (ingestEnsureTopic tmap (qTopicName q)).map (Topic.name ∘ fun t =>
        if t.name == qTopicName q then
          ingestPushQuestion (ingestEnsureSubtopic t (qSubName q)) (qSubName q) mk
        else t) = (ingestEnsureTopic tmap (qTopicName q)).map Topic.name :=
      List.map_congr_left (fun t _ => hFname t)
    rw [hcomp, ensureTopic_names, i1, List.map_append, List.map_cons, List.map_nil,
      firstSeen_append_one]
  · rw [List.map_map, List.length_map]
    have hcomp : (ingestEnsureTopic tmap (qTopicName q)).map (Topic.order ∘ fun t =>
        if t.name == qTopicName q then
          ingestPushQuestion (ingestEnsureSubtopic t (qSubName q)) (qSubName q) mk
        else t) = (ingestEnsureTopic tmap (qTopicName q)).map Topic.order :=
      List.map_congr_left (fun t _ => hForder t)
    rw [hcomp]
    exact ensureTopic_orders tmap (qTopicName q) i2
  · intro t2 ht2
    obtain ⟨t, htl1, rfl⟩ := List.mem_map.mp ht2
    rw [hFname t]
    by_cases hmatch : t.name == qTopicName q
    · have hteq : t.name = qTopicName q := beq_iff_eq.mp hmatch
      rw [if_pos hmatch, pushQ_subnames, ensureSub_subnames]
      have hfq : (List.filter (fun r => qTopicName r == t.name) [q]) = [q] := by
        simp [List.filter_cons, hteq]
      rw [List.filter_append, hfq, List.map_append, List.map_cons, List.map_nil,
        firstSeen_append_one]
      rcases ensureTopic_mem htl1 with hold | ⟨hn, hsubs, hnotin⟩
      · rw [i3 t hold]
      · have hfe : processed.filter (fun r => qTopicName r == t.name) = [] := by
          rw [List.filter_eq_nil_iff]
          intro r hr hc
          apply hnotin
          have hrq : qTopicName r = t.name := beq_iff_eq.mp hc
          rw [i1, mem_firstSeen]
          refine List.mem_map.mpr ⟨r, hr, ?_⟩
          rw [hrq, hteq]
        rw [hsubs, hfe]
        rfl
    · rw [if_neg hmatch]
      have htne : t.name ≠ qTopicName q := fun hc => hmatch (beq_iff_eq.mpr hc)
      have hfq : (List.filter (fun r => qTopicName r == t.name) [q]) = [] := by
        simp [List.filter_cons]
        intro hc
        exact htne hc.symm
      rw [List.filter_append, hfq, List.append_nil]
      rcases ensureTopic_mem htl1 with hold | ⟨hn, -, -⟩
      · exact i3 t hold
      · exact absurd hn htne
  · intro t2 ht2
    obtain ⟨t, htl1, rfl⟩ := List.mem_map.mp ht2
    by_cases hmatch : t.name == qTopicName q
    · rw [if_pos hmatch]
      have hlen : (ingestPushQuestion (ingestEnsureSubtopic t (qSubName q)) (qSubName q)
          mk).subtopics.length = (ingestEnsureSubtopic t (qSubName q)).subtopics.length := by
        unfold ingestPushQuestion
        exact List.length_map _ _
      rw [pushQ_suborders, hlen]
      apply ensureSub_suborders
      rcases ensureTopic_mem htl1 with hold | ⟨-, hsubs, -⟩
      · exact i4 t hold
      · rw [hsubs]
        rfl
    · rw [if_neg hmatch]
      rcases ensureTopic_mem htl1 with hold | ⟨hn, -, -⟩
      · exact i4 t hold
      · exact absurd hn (fun hc => hmatch (beq_iff_eq.mpr hc))
  · intro t2 ht2 sub2 hsub2
    obtain ⟨t, htl1, rfl⟩ := List.mem_map.mp ht2
    by_cases hmatch : t.name == qTopicName q
    · rw [if_pos hmatch] at hsub2
      unfold ingestPushQuestion at hsub2
      dsimp only at hsub2
      obtain ⟨sub, hsubX, rfl⟩ := List.mem_map.mp hsub2
      have hqord : sub.questions.map Question.order = List.range sub.questions.length := by
        rcases ensureSub_mem hsubX with hold | ⟨-, hqs, -⟩
        · rcases ensureTopic_mem htl1 with htold | ⟨-, hsubs, -⟩
          · exact i5 t htold sub hold
          · rw [hsubs] at hold
            exact absurd hold (List.not_mem_nil sub)
        · rw [hqs]
          rfl
      by_cases hsm : sub.name == qSubName q
      · rw [if_pos hsm]
        dsimp only
        rw [List.map_append, hqord, List.map_cons, List.map_nil, hmk,
          List.length_append, List.length_cons, List.length_nil]
        exact (List.range_succ _).symm
      · rw [if_neg hsm]
        exact hqord
    · rw [if_neg hmatch] at hsub2
      rcases ensureTopic_mem htl1 with hold | ⟨hn, -, -⟩
      · exact i5 t hold sub2 hsub2
      · exact absurd hn (fun hc => hmatch (beq_iff_eq.mpr hc))
  · intro t2 ht2 sub2 hsub2
    obtain ⟨t, htl1, rfl⟩ := List.mem_map.mp ht2
    rw [hFname t]
    by_cases hmatch : t.name == qTopicName q
    · have hteq : t.name = qTopicName q := beq_iff_eq.mp hmatch
      rw [if_pos hmatch] at hsub2
      unfold ingestPushQuestion at hsub2
      dsimp only at hsub2
      obtain ⟨sub, hsubX, rfl⟩ := List.mem_map.mp hsub2
      by_cases hsm : sub.name == qSubName q
      · have hseq : sub.name = qSubName q := beq_iff_eq.mp hsm
        rw [if_pos hsm]
        dsimp only
        have hfq : (List.filter (fun r => qTopicName r == t.name &&
            qSubName r == sub.name) [q]) = [q] := by
          simp [List.filter_cons, hteq, hseq]
        rw [List.filter_append, hfq, List.length_append, List.length_append]
        have hold0 : sub.questions.length =
            (processed.filter (fun r => qTopicName r == t.name &&
              qSubName r == sub.name)).length := by
          rcases ensureSub_mem hsubX with hold | ⟨-, hqs, hnotin⟩
          · rcases ensureTopic_mem htl1 with htold | ⟨-, hsubs, -⟩
            · exact i6 t htold sub hold
            · rw [hsubs] at hold
              exact absurd hold (List.not_mem_nil sub)
          · rcases ensureTopic_mem htl1 with htold | ⟨-, -, htnotin⟩
            · have hfe : processed.filter (fun r => qTopicName r == t.name &&
                  qSubName r == sub.name) = [] := by
                rw [List.filter_eq_nil_iff]
                intro r hr hc
                simp only [Bool.and_eq_true, beq_iff_eq] at hc
                apply hnotin
                rw [i3 t htold, mem_firstSeen]
                refine List.mem_map.mpr ⟨r, ?_, by rw [hc.2, hseq]⟩
                exact List.mem_filter.mpr ⟨hr, by simp [hc.1]⟩
              rw [hqs, hfe]
              rfl
            · have hfe : processed.filter (fun r => qTopicName r == t.name &&
                  qSubName r == sub.name) = [] := by
                rw [List.filter_eq_nil_iff]
                intro r hr hc
                simp only [Bool.and_eq_true, beq_iff_eq] at hc
                apply htnotin
                rw [i1, mem_firstSeen]
                refine List.mem_map.mpr ⟨r, hr, by rw [hc.1, hteq]⟩
              rw [hqs, hfe]
              rfl
        rw [hold0]
        rfl
      · rw [if_neg hsm]
        have hsne : sub.name ≠ qSubName q := fun hc => hsm (beq_iff_eq.mpr hc)
        have hfq : (List.filter (fun r => qTopicName r == t.name &&
            qSubName r == sub.name) [q]) = [] := by
          simp [List.filter_cons]
          intro h1 hc
          exact hsne hc.symm
        rw [List.filter_append, hfq, List.append_nil]
        rcases ensureSub_mem hsubX with hold | ⟨hn, -, -⟩
        · rcases ensureTopic_mem htl1 with htold | ⟨-, hsubs, -⟩
          · exact i6 t htold sub hold
          · rw [hsubs] at hold
            exact absurd hold (List.not_mem_nil sub)
        · exact absurd hn hsne
    · rw [if_neg hmatch] at hsub2
      have htne : t.name ≠ qTopicName q := fun hc => hmatch (beq_iff_eq.mpr hc)
      have hfq : (List.filter (fun r => qTopicName r == t.name &&
          qSubName r == sub2.name) [q]) = [] := by
        simp [List.filter_cons]
        intro hc
        exact absurd hc.symm htne
      rw [List.filter_append, hfq, List.append_nil]
      rcases ensureTopic_mem htl1 with hold | ⟨hn, -, -⟩
      · exact i6 t hold sub2 hsub2
      · exact absurd hn htne

lemma ingestStep_inv (processed : List RawQuestion) (tmap : List Topic) (c : Nat)
    (q : RawQuestion) (hinv : IngestInv processed tmap) :
    IngestInv (processed ++ [q]) (ingestStep (tmap, c) q).1 := by
  obtain ⟨mk, heq, hmk⟩ := ingestStep_shape tmap c q
  rw [heq]
  exact step_inv_generic processed tmap q mk hmk hinv

lemma ingest_fold_inv :
    ∀ (qs processed : List RawQuestion) (tmap : List Topic) (c : Nat),
    IngestInv processed tmap →
    IngestInv (processed ++ qs) ((qs.foldl ingestStep (tmap, c)).1) := by
  intro qs
  induction qs with
  | nil =>
    intro processed tmap c h
    simpa using h
  | cons q qs ih =>
    intro processed tmap c h
    rw [List.foldl_cons]
    have h2 := ingestStep_inv processed tmap c q h
    have heta : ingestStep (tmap, c) q =
        ((ingestStep (tmap, c) q).1, (ingestStep (tmap, c) q).2) := rfl
    rw [heta]
    have h3 := ih (processed ++ [q]) (ingestStep (tmap, c) q).1 (ingestStep (tmap, c) q).2 h2
    simpa [List.append_assoc] using h3

lemma ingestTopics_inv (qs : List RawQuestion) : IngestInv qs (ingestTopics qs) := by
  have h0 : IngestInv [] ([] : List Topic) := by
    refine ⟨rfl, rfl, ?_, ?_, ?_, ?_⟩ <;> intro t ht <;> exact absurd ht (List.not_mem_nil t)
  have h1 := ingest_fold_inv qs [] [] 0 h0
  simpa [ingestTopics] using h1

/-- C3: the ingest transform groups records by sanitized
(topic, subtopic) names in first-seen order — a record matching an
existing group reuses it (topic and subtopic names are the first-seen
name lists, so no duplicate groups are created), topic/subtopic `order`
is the first-seen (positional) index, question `order`s within a
subtopic are dense positional indices, and each subtopic holds exactly
the records of its group; two records sharing `topic="Arrays",
subTopic="Basics"` produce one Topic and one Subtopic with two
Questions of `order` 0 and 1. -/
theorem ingest_grouping_first_seen :
    (∀ qs : List RawQuestion,
      (ingestTopics qs).map Topic.name = firstSeen (qs.map qTopicName) ∧
      (ingestTopics qs).map Topic.order = List.range (ingestTopics qs).length ∧
      (∀ t ∈ ingestTopics qs,
        t.subtopics.map Subtopic.name =
          firstSeen ((qs.filter (fun r => qTopicName r == t.name)).map qSubName) ∧
        t.subtopics.map Subtopic.order = List.range t.subtopics.length ∧
        ∀ sub ∈ t.subtopics,
          sub.questions.map Question.order = List.range sub.questions.length ∧
          sub.questions.length =
            (qs.filter (fun r => qTopicName r == t.name && qSubName r == sub.name)).length)) ∧
    (ingestTopics [rqA1, rqA2]).map (fun t => (t.name, t.order,
        t.subtopics.map (fun sub => (sub.name, sub.order,
          sub.questions.map (fun qq => (qq.id, qq.order)))))) =
      [("Arrays", 0, [("Basics", 0, [("q1", 0), ("q2", 1)])])] := by
  constructor
  · intro qs
    obtain ⟨i1, i2, i3, i4, i5, i6⟩ := ingestTopics_inv qs
    exact ⟨i1, i2, fun t ht =>
      ⟨i3 t ht, i4 t ht, fun sub hs => ⟨i5 t ht sub hs, i6 t ht sub hs⟩⟩⟩
  · rfl

/-- C3 witness: the two-record fixture, through the grouping theorem at
the concretely produced topic. -/
theorem ingest_grouping_first_seen_witness :
    exIngTopic ∈ ingestTopics [rqA1, rqA2] ∧
    exIngTopic.subtopics.map Subtopic.order = List.range exIngTopic.subtopics.length ∧
    ∀ sub ∈ exIngTopic.subtopics,
      sub.questions.map Question.order = List.range sub.questions.length := by
  have hlist : ingestTopics [rqA1, rqA2] = [exIngTopic] := by rfl
  have ht : exIngTopic ∈ ingestTopics [rqA1, rqA2] := by
    rw [hlist]
    exact List.mem_singleton.mpr rfl
  have h := (ingest_grouping_first_seen.1 [rqA1, rqA2]).2.2 exIngTopic ht
  exact ⟨ht, h.2.1, fun sub hs => (h.2.2 sub hs).1⟩

end QMS
